import Mathlib

/-!
# Verification of the LSE-FIUBA administrative chatbot core

A shallow embedding, in Lean 4, of the retrieval/synthesis/verification
engine of the chatbot (hybrid retriever, anti-hallucination engine,
chunker, FAISS vector store, relation mapper, graph builder and answer
synthesizer), together with theorems settling the frozen specification
claims about it.

Conventions used throughout:
* Python `float` arithmetic is modelled with `ℚ`.  All the constants that
  appear in the code (`0.3`, `0.65`, `1.3`, …) are decimal literals, and
  the comparisons the claims are about are far from the region where
  binary rounding of IEEE doubles could flip a verdict; the one place
  where exactness is load-bearing (`int(words * 1.3)`) is noted at its
  definition.
* Python strings are Lean `String`s; most character-level work is done on
  `List Char` via `String.data`.  `str.lower()` is modelled for the
  ASCII letters plus the accented Spanish letters that actually occur in
  the corpus and the keyword tables (`Á É Í Ó Ú Ñ Ü`).
* Randomness (`uuid.uuid4().hex[:8]` in the chunker) is modelled by an
  explicit supply `uuids : Nat → String` indexed by the chunk position;
  one program run corresponds to one supply.
-/

namespace PyStr

/-- `str.lower()` on one character: ASCII `A`–`Z` plus the accented
Spanish uppercase letters used by the code and corpus. -/
def lowerChar (c : Char) : Char :=
  if 'A' ≤ c ∧ c ≤ 'Z' then Char.ofNat (c.toNat + 32)
  else if c = 'Á' then 'á'
  else if c = 'É' then 'é'
  else if c = 'Í' then 'í'
  else if c = 'Ó' then 'ó'
  else if c = 'Ú' then 'ú'
  else if c = 'Ñ' then 'ñ'
  else if c = 'Ü' then 'ü'
  else c

/-- `str.lower()`. -/
def lower (s : String) : String := ⟨s.data.map lowerChar⟩

/-- Does `needle` occur as a contiguous sublist of `hay`?  (Python's
`needle in hay` on strings.) -/
def subList (needle hay : List Char) : Bool :=
  match hay with
  | [] => needle.isEmpty
  | _ :: t => needle.isPrefixOf hay || subList needle t

/-- Python `needle in hay` for strings. -/
def containsSub (hay needle : String) : Bool := subList needle.data hay.data

/-- Python whitespace (the characters `str.split`/`str.strip` split on). -/
def isSpace (c : Char) : Bool :=
  c = ' ' || c = '\t' || c = '\n' || c = '\r' || c = '\x0b' || c = '\x0c'

/-- Drop leading Python whitespace. -/
def dropLeading : List Char → List Char
  | [] => []
  | c :: t => if isSpace c then dropLeading t else c :: t

/-- Python `str.strip()`. -/
def stripList (l : List Char) : List Char :=
  (dropLeading (dropLeading l.reverse).reverse)

/-- Python `str.strip()` on strings. -/
def strip (s : String) : String := ⟨stripList s.data⟩

/-- Split on maximal runs of whitespace, dropping empty words:
Python `str.split()` with no argument.  `acc` is the word currently
being read, in reverse. -/
def splitWsAux : List Char → List Char → List (List Char)
  | [], acc => if acc.isEmpty then [] else [acc.reverse]
  | c :: t, acc =>
    if isSpace c then
      if acc.isEmpty then splitWsAux t [] else acc.reverse :: splitWsAux t []
    else splitWsAux t (c :: acc)

/-- Python `str.split()`: list of whitespace-separated words. -/
def splitWs (s : String) : List String :=
  (splitWsAux s.data []).map fun l => ⟨l⟩

/-- Split on every occurrence of one character, keeping empty parts:
Python `str.split("\n")` when `sep = '\n'`. -/
def splitOnChar (sep : Char) : List Char → List (List Char)
  | [] => [[]]
  | c :: t =>
    if c = sep then [] :: splitOnChar sep t
    else match splitOnChar sep t with
      | [] => [[c]]
      | h :: r => (c :: h) :: r

/-- Python `str.split("\n")`. -/
def splitLines (s : String) : List String :=
  (splitOnChar '\n' s.data).map fun l => ⟨l⟩

end PyStr

/-! ## Hybrid retriever — weight classifier (`hybrid_retriever.py`)

`HybridRetriever._adjust_weights` lowercases the query and then tests, in
this order: the structural keyword list (plain substring tests), the
descriptive keyword list, and the path patterns (`re.search`); the first
group that matches decides the `(rag, graph)` weight pair, otherwise the
retriever's default weights are returned. -/

namespace HybridW

open PyStr

def structuralKeywords : List String :=
  ["requisito", "necesito para", "correlativa", "prerrequisito",
   "camino", "desde", "hasta", "pasos para",
   "antes de", "después de", "primero"]

def descriptiveKeywords : List String :=
  ["qué es", "cómo funciona", "explicar", "describir",
   "fundamentación", "objetivos", "perfil"]

/-- `.+ hasta` matched right after a `desde ` occurrence: at least one
non-newline character, then the literal ` hasta` (the regex `.` does not
match a newline). -/
def dotPlusHasta : List Char → Bool
  | [] => false
  | c :: t =>
    decide (c ≠ '\n') && ((" hasta".data.isPrefixOf t) || dotPlusHasta t)

/-- `re.search("desde .+ hasta", s)`: some occurrence of `desde ` is
followed by at least one non-newline character and then ` hasta`. -/
def searchDesdeHasta : List Char → Bool
  | [] => false
  | c :: t =>
    ("desde ".data.isPrefixOf (c :: t) && dotPlusHasta ((c :: t).drop 6))
      || searchDesdeHasta t

/-- One of the `path_keywords` patterns matches the (lowercased) query.
Four of the five patterns are literal; `desde .+ hasta` is a regex. -/
def pathMatches (q : String) : Bool :=
  containsSub q "camino de" || searchDesdeHasta q.data ||
  containsSub q "cómo llego" || containsSub q "pasos desde" ||
  containsSub q "trayecto"

/-- `HybridRetriever._adjust_weights`.  `ragWeight`, `graphWeight` are the
retriever's default weights (`0.6`, `0.4` unless configured). -/
def adjustWeights (ragWeight graphWeight : ℚ) (query : String) : ℚ × ℚ :=
  let queryLower := lower query
  if structuralKeywords.any (fun kw => containsSub queryLower kw) then
    (3/10, 7/10)
  else if descriptiveKeywords.any (fun kw => containsSub queryLower kw) then
    (8/10, 2/10)
  else if pathMatches queryLower then
    (1/10, 9/10)
  else
    (ragWeight, graphWeight)

end HybridW

/-- C1 counterexample: the query `"camino desde la CESE hasta una
maestría"` does match a path pattern, yet `_adjust_weights` returns
`(0.3, 0.7)` — the structural keyword list (`camino`, `desde`, `hasta`)
is tested first — and not the `(0.1, 0.9)` the claim asserts. -/
theorem C1_counterexample :
    HybridW.pathMatches (PyStr.lower "camino desde la CESE hasta una maestría") = true ∧
    HybridW.adjustWeights (6/10) (4/10) "camino desde la CESE hasta una maestría"
      = (3/10, 7/10) ∧
    HybridW.adjustWeights (6/10) (4/10) "camino desde la CESE hasta una maestría"
      ≠ (1/10, 9/10) := by
  have hstruct : HybridW.structuralKeywords.any
      (fun kw => PyStr.containsSub
        (PyStr.lower "camino desde la CESE hasta una maestría") kw) = true := by
    decide
  have heq : HybridW.adjustWeights (6/10) (4/10)
      "camino desde la CESE hasta una maestría" = (3/10, 7/10) := by
    unfold HybridW.adjustWeights
    simp [hstruct]
  refine ⟨by decide, heq, ?_⟩
  rw [heq]
  intro hcontra
  have := congrArg Prod.fst hcontra
  norm_num at this

/-- C1 (amended): structural keywords take priority over both the
descriptive and the path groups: any query whose lowercase form contains
a structural keyword is assigned `(rag=0.3, graph=0.7)`, whatever else it
contains and whatever the default weights are; in particular
`"camino desde la CESE hasta una maestría"` yields `(0.3, 0.7)`. -/
theorem C1_structural_priority (rw gw : ℚ) (query : String)
    (h : ∃ kw ∈ HybridW.structuralKeywords,
          PyStr.containsSub (PyStr.lower query) kw = true) :
    HybridW.adjustWeights rw gw query = (3/10, 7/10) := by
  obtain ⟨kw, hmem, hsub⟩ := h
  unfold HybridW.adjustWeights
  have hany : HybridW.structuralKeywords.any
      (fun kw => PyStr.containsSub (PyStr.lower query) kw) = true :=
    List.any_eq_true.mpr ⟨kw, hmem, hsub⟩
  simp [hany]

/-- Witness for `C1_structural_priority` at the claim's own query. -/
theorem C1_structural_priority_witness :
    HybridW.adjustWeights (6/10) (4/10) "camino desde la CESE hasta una maestría"
      = (3/10, 7/10) :=
  C1_structural_priority (6/10) (4/10) _ ⟨"camino", by decide, by decide⟩

/-! ## Anti-hallucination engine (`anti_hallucination.py`)

`AntiHallucinationEngine` is modelled for the configurations the system
actually builds: `llm_provider=None` (so `check_faithfulness` dispatches
to the embedding back-end when an embedding model is present and to the
heuristic back-end otherwise; the LLM judge branch is dead in these
configurations) and an optional embedding model represented as an opaque
`String → List ℚ`. -/

namespace AntiHall

open PyStr

structure FaithfulnessCheck where
  is_faithful : Bool := true
  score : ℚ := 1
  unsupported_claims : List String := []
  supported_claims : List String := []
  deriving DecidableEq, Repr

/-- `_split_into_claims`: `re.split(r"(?<=[.!?])\s+", text)`, then strip
each part and keep those whose stripped length exceeds 10.  The split
consumes a maximal whitespace run that directly follows `.`, `!` or `?`.
`acc` holds the current part in reverse; `fuel` bounds recursion (the
input length suffices, each step consumes one character). -/
def splitClaimsAux (fuel : Nat) (acc : List Char) (l : List Char) :
    List (List Char) :=
  match fuel, l with
  | _, [] => [acc.reverse]
  | 0, _ => [acc.reverse ++ l]
  | fuel + 1, c :: t =>
    if isSpace c && (match acc with
        | p :: _ => p = '.' || p = '!' || p = '?'
        | [] => false) then
      acc.reverse :: splitClaimsAux fuel [] (dropLeading t)
    else
      splitClaimsAux fuel (c :: acc) t

def splitClaims (text : String) : List String :=
  ((splitClaimsAux text.data.length [] text.data).map
    (fun l => (⟨stripList l⟩ : String))).filter (fun s => s.length > 10)

/-! ### Heuristic faithfulness back-end: `re.findall` for the three data
patterns, with `re.IGNORECASE`. -/

/-- Python `\w` for the alphabet in play: ASCII letters, digits,
underscore and the accented Spanish letters. -/
def isWordChar (c : Char) : Bool :=
  ('a' ≤ c && c ≤ 'z') || ('A' ≤ c && c ≤ 'Z') || c.isDigit || c = '_' ||
  c ∈ ['á', 'é', 'í', 'ó', 'ú', 'ñ', 'ü', 'Á', 'É', 'Í', 'Ó', 'Ú', 'Ñ', 'Ü']

/-- Case-insensitive literal match: `pat` (given lowercase) against the
head of `l`; returns the consumed original characters and the rest. -/
def matchLitCI (pat : List Char) (l : List Char) :
    Option (List Char × List Char) :=
  match pat, l with
  | [], l => some ([], l)
  | _ :: _, [] => none
  | p :: ps, c :: cs =>
    if lowerChar c = p then
      (matchLitCI ps cs).map (fun (m, r) => (c :: m, r))
    else none

/-- Greedy `X?` on one literal character (case-insensitive). -/
def matchOptCI (p : Char) (l : List Char) : List Char × List Char :=
  match l with
  | [] => ([], [])
  | c :: cs => if lowerChar c = p then ([c], cs) else ([], l)

def takeDigits (l : List Char) : List Char × List Char :=
  match l with
  | [] => ([], [])
  | c :: cs =>
    if c.isDigit then
      let (d, r) := takeDigits cs
      (c :: d, r)
    else ([], l)

def takeSpaces (l : List Char) : List Char × List Char :=
  match l with
  | [] => ([], [])
  | c :: cs =>
    if isSpace c then
      let (d, r) := takeSpaces cs
      (c :: d, r)
    else ([], l)

/-- The unit alternatives of pattern 1,
`bimestres?|meses?|años?|%|por\s*ciento`, tried in regex order. -/
def matchPat1Alt (l : List Char) : Option (List Char × List Char) :=
  match matchLitCI "bimestre".data l with
  | some (m, r) => let (s, r') := matchOptCI 's' r; some (m ++ s, r')
  | none =>
    match matchLitCI "mese".data l with
    | some (m, r) => let (s, r') := matchOptCI 's' r; some (m ++ s, r')
    | none =>
      match matchLitCI "año".data l with
      | some (m, r) => let (s, r') := matchOptCI 's' r; some (m ++ s, r')
      | none =>
        match matchLitCI "%".data l with
        | some (m, r) => some (m, r)
        | none =>
          match matchLitCI "por".data l with
          | some (m, r) =>
            let (sp, r') := takeSpaces r
            match matchLitCI "ciento".data r' with
            | some (m2, r'') => some (m ++ sp ++ m2, r'')
            | none => none
          | none => none

/-- Pattern 1 at the current position:
`\d+\s*(?:bimestres?|meses?|años?|%|por\s*ciento)`.  Digits and the
whitespace run are maximal (no shorter choice can help, as no
alternative starts with a digit or whitespace). -/
def matchPat1At (_prev : Option Char) (l : List Char) :
    Option (List Char × List Char) :=
  let (ds, r) := takeDigits l
  if ds.isEmpty then none
  else
    let (sp, r') := takeSpaces r
    match matchPat1Alt r' with
    | some (m, rest) => some (ds ++ sp ++ m, rest)
    | none => none

/-- Word boundary before a word-character position: previous character
absent or not a word character. -/
def atBoundary (prev : Option Char) : Bool :=
  match prev with
  | none => true
  | some p => !isWordChar p

/-- `\b` after the match: next character absent or not a word character. -/
def boundaryAfter (l : List Char) : Bool :=
  match l with
  | [] => true
  | c :: _ => !isWordChar c

/-- One alternative of pattern 2 with its trailing `\b` check. -/
def matchCodeAlt (code : String) (l : List Char) :
    Option (List Char × List Char) :=
  match matchLitCI (lower code).data l with
  | some (m, r) => if boundaryAfter r then some (m, r) else none
  | none => none

/-- Pattern 2 at the current position:
`\b(?:CEIA|CESE|CEIoT|MIA|MIAE|MIoT|MCB)\b`, alternatives in regex
order (so `MIA` only wins over `MIAE` when its trailing `\b` holds). -/
def matchPat2At (prev : Option Char) (l : List Char) :
    Option (List Char × List Char) :=
  if atBoundary prev then
    (matchCodeAlt "CEIA" l).orElse fun _ =>
    (matchCodeAlt "CESE" l).orElse fun _ =>
    (matchCodeAlt "CEIoT" l).orElse fun _ =>
    (matchCodeAlt "MIA" l).orElse fun _ =>
    (matchCodeAlt "MIAE" l).orElse fun _ =>
    (matchCodeAlt "MIoT" l).orElse fun _ =>
    matchCodeAlt "MCB" l
  else none

/-- Pattern 3 at the current position: `\b(?:Art\.\s*\d+)\b`. -/
def matchPat3At (prev : Option Char) (l : List Char) :
    Option (List Char × List Char) :=
  if atBoundary prev then
    match matchLitCI "art.".data l with
    | some (m, r) =>
      let (sp, r') := takeSpaces r
      let (ds, r'') := takeDigits r'
      if ds.isEmpty then none
      else if boundaryAfter r'' then some (m ++ sp ++ ds, r'') else none
    | none => none
  else none

/-- `re.findall` driver: scan left to right, non-overlapping matches,
advancing one character on failure.  `fuel = length + 1` suffices since
every step consumes at least one character. -/
def findAllAux (matchAt : Option Char → List Char → Option (List Char × List Char)) :
    Nat → Option Char → List Char → List (List Char)
  | 0, _, _ => []
  | _ + 1, _, [] => []
  | fuel + 1, prev, c :: t =>
    match matchAt prev (c :: t) with
    | some (m, rest) => m :: findAllAux matchAt fuel (m.getLast? <|> prev) rest
    | none => findAllAux matchAt fuel (some c) t

def findAll (matchAt : Option Char → List Char → Option (List Char × List Char))
    (s : String) : List String :=
  (findAllAux matchAt (s.data.length + 1) none s.data).map fun l => (⟨l⟩ : String)

/-- The data tokens `_check_faithfulness_heuristic` finds in the answer,
in pattern order. -/
def heuristicMatches (answer : String) : List String :=
  findAll matchPat1At answer ++ findAll matchPat2At answer ++
    findAll matchPat3At answer

/-- `(total_checks, passed_checks)` of the heuristic back-end. -/
def heuristicCounts (answer context : String) : Nat × Nat :=
  let ms := heuristicMatches answer
  (ms.length,
   (ms.filter (fun m => containsSub (lower context) (lower m))).length)

/-- `_check_faithfulness_heuristic`.  Note the `0.6` faithfulness cut-off
(the other back-ends use `0.7`). -/
def checkFaithfulnessHeuristic (answer context : String) : FaithfulnessCheck :=
  let tc := heuristicCounts answer context
  let score : ℚ := if 0 < tc.1 then (tc.2 : ℚ) / (tc.1 : ℚ) else 7/10
  { is_faithful := decide ((3/5 : ℚ) ≤ score), score := score }

/-! ### Embedding faithfulness back-end. -/

def dotQ : List ℚ → List ℚ → ℚ
  | a :: as, b :: bs => a * b + dotQ as bs
  | _, _ => 0

/-- `np.max` of the similarities of one claim against every context
sentence (callers guarantee a non-empty context list). -/
def maxSimTo (f : String → List ℚ) (claim : String) (ctxs : List String) : ℚ :=
  match ctxs with
  | [] => 0
  | h :: t => t.foldl (fun m c => max m (dotQ (f claim) (f c))) (dotQ (f claim) (f h))

/-- `_check_faithfulness_embeddings` with the embedding model abstracted
as `f`.  A claim is supported iff its maximum similarity is strictly
greater than `0.65`. -/
def checkFaithfulnessEmbeddings (f : String → List ℚ) (answer context : String) :
    FaithfulnessCheck :=
  let claims := splitClaims answer
  let ctxs := splitClaims context
  if claims.isEmpty || ctxs.isEmpty then { score := 1/2 }
  else
    let supported := claims.filter fun cl => decide (maxSimTo f cl ctxs > 13/20)
    let unsupported := claims.filter fun cl => !decide (maxSimTo f cl ctxs > 13/20)
    let score : ℚ := (supported.length : ℚ) / (claims.length : ℚ)
    { is_faithful := decide ((7/10 : ℚ) ≤ score)
      score := score
      unsupported_claims := unsupported
      supported_claims := supported }

/-- `check_faithfulness` for an engine with `llm_provider=None` and the
given optional embedding model. -/
def checkFaithfulness (embedder : Option (String → List ℚ))
    (answer context : String) : FaithfulnessCheck :=
  if answer = "" ∨ context = "" then
    { is_faithful := false, score := 0 }
  else
    match embedder with
    | some f => checkFaithfulnessEmbeddings f answer context
    | none => checkFaithfulnessHeuristic answer context

/-! ### Confidence, abstention, fallback contacts, cross-reference. -/

/-- `compute_confidence`. -/
def computeConfidence (retrievalScores : List ℚ) (faithfulnessScore : ℚ)
    (sourceCount : Nat) (crossReferenceScore : ℚ) : ℚ :=
  if retrievalScores.isEmpty then 0
  else
    let avgRetrieval := retrievalScores.sum / (retrievalScores.length : ℚ)
    let sourceFactor := min ((sourceCount : ℚ) / 3) 1
    let confidence := 3/10 * avgRetrieval + 3/10 * faithfulnessScore
      + 15/100 * sourceFactor + 25/100 * crossReferenceScore
    min (max confidence 0) 1

def outOfScopeIndicators : List String :=
  ["precio", "costo", "cuánto sale", "cuánto cuesta",
   "opinión", "opinás", "pensás",
   "mejor", "peor", "recomendás",
   "otro universidad", "otra facultad"]

def oosMessage : String :=
  "Esta pregunta está fuera del alcance de la información disponible en los documentos del LSE."

def lowConfidenceAbstainMessage : String :=
  "No tengo suficiente información para responder con certeza."

/-- `should_abstain` with the engine's `abstention_threshold`
(default `0.3`). -/
def shouldAbstain (abstentionThreshold : ℚ) (confidence : ℚ) (query : String) :
    Bool × String :=
  let queryLower := lower query
  if outOfScopeIndicators.any (fun ind => containsSub queryLower ind) then
    (true, oosMessage)
  else if confidence < abstentionThreshold then
    (true, lowConfidenceAbstainMessage)
  else
    (false, "")

/-- `get_fallback_contact`. -/
def getFallbackContact (query : String) : String :=
  let queryLower := lower query
  if ["inscripci", "inscribi", "matricul"].any (fun kw => containsSub queryLower kw) then
    "inscripcion.lse@fi.uba.ar"
  else if ["proyecto", "gdp", "gti"].any (fun kw => containsSub queryLower kw) then
    "direccion.posgrado.lse@fi.uba.ar"
  else if ["trabajo final", "tesis", "ttf", "defensa"].any (fun kw => containsSub queryLower kw) then
    "direccion.posgrado.lse@fi.uba.ar"
  else
    "gestion.academica.lse@fi.uba.ar"

/-- `cross_reference_check` with an optional embedding model; the
heuristic branch is the Jaccard word overlap on lowercased contexts. -/
def crossReferenceCheck (embedder : Option (String → List ℚ))
    (ragContext graphContext _answer : String) : ℚ :=
  if ragContext = "" ∨ graphContext = "" then 1/2
  else
    match embedder with
    | some f =>
      let sim := dotQ (f (ragContext.take 1000)) (f (graphContext.take 1000))
      max 0 (min sim 1)
    | none =>
      let ragWords := (splitWs (lower ragContext)).dedup
      let graphWords := (splitWs (lower graphContext)).dedup
      if ragWords.isEmpty || graphWords.isEmpty then 1/2
      else
        let overlap := (ragWords.filter (fun w => graphWords.contains w)).length
        let total := (ragWords ++ graphWords.filter (fun w => !ragWords.contains w)).length
        if 0 < total then (overlap : ℚ) / (total : ℚ) else 1/2

end AntiHall

/-- C4 counterexample: with answer `"CEIA CESE MIA"` and context
`"ceia cese"` the heuristic back-end finds three program-code tokens, two
of which occur in the context, so `score = 2/3 < 0.7` — yet
`is_faithful = true`, because this back-end uses the `0.6` cut-off and
not the claimed `0.7`. -/
theorem C4_counterexample :
    (AntiHall.checkFaithfulnessHeuristic "CEIA CESE MIA" "ceia cese").is_faithful = true ∧
    (AntiHall.checkFaithfulnessHeuristic "CEIA CESE MIA" "ceia cese").score = 2/3 ∧
    ¬ ((7/10 : ℚ) ≤
        (AntiHall.checkFaithfulnessHeuristic "CEIA CESE MIA" "ceia cese").score) := by
  have hc : AntiHall.heuristicCounts "CEIA CESE MIA" "ceia cese" = (3, 2) := by
    decide
  have hscore :
      (AntiHall.checkFaithfulnessHeuristic "CEIA CESE MIA" "ceia cese").score = 2/3 := by
    unfold AntiHall.checkFaithfulnessHeuristic
    rw [hc]
    norm_num
  refine ⟨?_, hscore, ?_⟩
  · unfold AntiHall.checkFaithfulnessHeuristic
    rw [hc]
    norm_num
  · rw [hscore]
    norm_num

/-- C4 (amended): when the answer and the context both split into at
least one claim/sentence, the embedding back-end sets
`is_faithful ↔ score ≥ 0.7` and counts a claim as supported exactly when
its maximum similarity against the context sentences is **strictly**
greater than `0.65`; the heuristic back-end instead sets
`is_faithful ↔ score ≥ 0.6`. -/
theorem C4_faithfulness_thresholds (f : String → List ℚ) (answer context : String)
    (hca : AntiHall.splitClaims answer ≠ [])
    (hcc : AntiHall.splitClaims context ≠ []) :
    ((AntiHall.checkFaithfulnessEmbeddings f answer context).is_faithful = true
      ↔ (7/10 : ℚ) ≤ (AntiHall.checkFaithfulnessEmbeddings f answer context).score)
    ∧ (∀ cl ∈ AntiHall.splitClaims answer,
        (cl ∈ (AntiHall.checkFaithfulnessEmbeddings f answer context).supported_claims
          ↔ (13/20 : ℚ) < AntiHall.maxSimTo f cl (AntiHall.splitClaims context)))
    ∧ ((AntiHall.checkFaithfulnessHeuristic answer context).is_faithful = true
      ↔ (3/5 : ℚ) ≤ (AntiHall.checkFaithfulnessHeuristic answer context).score) := by
  have h736 : (AntiHall.splitClaims answer).isEmpty
      || (AntiHall.splitClaims context).isEmpty = false := by
    simp [List.isEmpty_iff, hca, hcc]
  refine ⟨?_, ?_, ?_⟩
  · unfold AntiHall.checkFaithfulnessEmbeddings
    simp only [hca, hcc, List.isEmpty_iff, if_neg, Bool.or_eq_true, or_self,
      if_false, decide_eq_true_eq]
  · intro cl hcl
    unfold AntiHall.checkFaithfulnessEmbeddings
    simp only [hca, hcc, List.isEmpty_iff, Bool.or_eq_true, or_self, if_false]
    simp [List.mem_filter, hcl]
  · unfold AntiHall.checkFaithfulnessHeuristic
    simp [decide_eq_true_eq]

/-- Witness for `C4_faithfulness_thresholds` at a concrete embedder,
answer and context. -/
theorem C4_faithfulness_thresholds_witness :
    AntiHall.splitClaims "Una respuesta con contenido suficiente." ≠ [] ∧
    AntiHall.splitClaims "Un contexto con contenido suficiente." ≠ [] ∧
    (((AntiHall.checkFaithfulnessEmbeddings (fun _ => [1])
        "Una respuesta con contenido suficiente."
        "Un contexto con contenido suficiente.").is_faithful = true
      ↔ (7/10 : ℚ) ≤ (AntiHall.checkFaithfulnessEmbeddings (fun _ => [1])
        "Una respuesta con contenido suficiente."
        "Un contexto con contenido suficiente.").score)
    ∧ (∀ cl ∈ AntiHall.splitClaims "Una respuesta con contenido suficiente.",
        (cl ∈ (AntiHall.checkFaithfulnessEmbeddings (fun _ => [1])
            "Una respuesta con contenido suficiente."
            "Un contexto con contenido suficiente.").supported_claims
          ↔ (13/20 : ℚ) < AntiHall.maxSimTo (fun _ => [1]) cl
              (AntiHall.splitClaims "Un contexto con contenido suficiente.")))
    ∧ ((AntiHall.checkFaithfulnessHeuristic
          "Una respuesta con contenido suficiente."
          "Un contexto con contenido suficiente.").is_faithful = true
      ↔ (3/5 : ℚ) ≤ (AntiHall.checkFaithfulnessHeuristic
          "Una respuesta con contenido suficiente."
          "Un contexto con contenido suficiente.").score)) :=
  ⟨by decide, by decide,
   C4_faithfulness_thresholds (fun _ => [1]) _ _ (by decide) (by decide)⟩

/-- C6 (confirmed): for every abstention threshold, every confidence
value and every query whose lowercase form contains one of the listed
out-of-scope markers, `should_abstain` returns `true` with the
out-of-scope reason — the marker scan runs before the confidence test. -/
theorem C6_abstain_on_out_of_scope (thr conf : ℚ) (query : String)
    (h : ∃ ind ∈ AntiHall.outOfScopeIndicators,
          PyStr.containsSub (PyStr.lower query) ind = true) :
    AntiHall.shouldAbstain thr conf query = (true, AntiHall.oosMessage) := by
  obtain ⟨ind, hmem, hsub⟩ := h
  have hany : AntiHall.outOfScopeIndicators.any
      (fun ind => PyStr.containsSub (PyStr.lower query) ind) = true :=
    List.any_eq_true.mpr ⟨ind, hmem, hsub⟩
  unfold AntiHall.shouldAbstain
  simp [hany]

/-- Witness for `C6_abstain_on_out_of_scope`: the literal scenario query
with a high confidence still abstains as out-of-scope. -/
theorem C6_abstain_on_out_of_scope_witness :
    AntiHall.shouldAbstain (3/10) (9/10) "¿Cuánto cuesta la carrera?"
      = (true, AntiHall.oosMessage) :=
  C6_abstain_on_out_of_scope (3/10) (9/10) _
    ⟨"cuánto cuesta", by decide, by decide⟩

/-- C7 (confirmed): on a non-empty score list `compute_confidence` is
exactly the clamped weighted sum
`0.30·avg + 0.30·faithfulness + 0.15·min(sources/3, 1) + 0.25·cross_ref`,
and on every input (empty list included) the result lies in `[0, 1]`. -/
theorem C7_confidence_formula_and_bounds (scores : List ℚ) (faith : ℚ)
    (sourceCount : Nat) (crossRef : ℚ) :
    (scores ≠ [] →
      AntiHall.computeConfidence scores faith sourceCount crossRef
        = min (max (3/10 * (scores.sum / (scores.length : ℚ)) + 3/10 * faith
            + 15/100 * min ((sourceCount : ℚ) / 3) 1 + 25/100 * crossRef) 0) 1)
    ∧ 0 ≤ AntiHall.computeConfidence scores faith sourceCount crossRef
    ∧ AntiHall.computeConfidence scores faith sourceCount crossRef ≤ 1 := by
  rcases scores with _ | ⟨s, t⟩
  · simp [AntiHall.computeConfidence]
  · have h : AntiHall.computeConfidence (s :: t) faith sourceCount crossRef
        = min (max (3/10 * ((s :: t).sum / (((s :: t).length : Nat) : ℚ)) + 3/10 * faith
            + 15/100 * min ((sourceCount : ℚ) / 3) 1 + 25/100 * crossRef) 0) 1 := by
      simp [AntiHall.computeConfidence]
    refine ⟨fun _ => h, ?_, ?_⟩
    · rw [h]
      exact le_min (le_max_right _ _) (by norm_num)
    · rw [h]
      exact min_le_right _ _

/-- Witness for `C7_confidence_formula_and_bounds` on a singleton score
list. -/
theorem C7_confidence_formula_and_bounds_witness :
    (([4/5] : List ℚ) ≠ [] →
      AntiHall.computeConfidence [4/5] (7/10) 2 (1/2)
        = min (max (3/10 * (([4/5] : List ℚ).sum / (([4/5] : List ℚ).length : ℚ))
            + 3/10 * (7/10) + 15/100 * min ((2 : ℚ) / 3) 1 + 25/100 * (1/2)) 0) 1)
    ∧ 0 ≤ AntiHall.computeConfidence [4/5] (7/10) 2 (1/2)
    ∧ AntiHall.computeConfidence [4/5] (7/10) 2 (1/2) ≤ 1 :=
  C7_confidence_formula_and_bounds [4/5] (7/10) 2 (1/2)

/-! ## Relation mapper and graph builder (`relationship_mapper.py`,
`graph_builder.py`)

Entity/relationship records follow the dataclasses of the source;
`properties` dicts are association lists whose values are strings or
numbers (the two value shapes the code stores).  The graph is the
`networkx.DiGraph` as used by the builder: insertion-ordered node and
edge association lists; `add_edge` on an existing `(source, target)` pair
updates the edge attributes in place. -/

namespace GraphKG

inductive EntityType where
  | programa | materia | titulo | requisito | plazo | articulo
  | contacto | institucion | resolucion | modalidad | proceso
  deriving DecidableEq, Repr

def EntityType.value : EntityType → String
  | .programa => "programa"
  | .materia => "materia"
  | .titulo => "titulo"
  | .requisito => "requisito"
  | .plazo => "plazo"
  | .articulo => "articulo"
  | .contacto => "contacto"
  | .institucion => "institucion"
  | .resolucion => "resolucion"
  | .modalidad => "modalidad"
  | .proceso => "proceso"

/-- A Python dict value as stored in `properties`: a string or a number. -/
inductive PropVal where
  | s (v : String)
  | q (v : ℚ)

def PropDict := List (String × PropVal)

/-- `d.get(key, "")` for a string-valued property. -/
def PropDict.getStr (d : PropDict) (key : String) : String :=
  match d.find? (fun p => p.1 = key) with
  | some (_, .s v) => v
  | _ => ""

structure Entity where
  entity_id : String
  name : String
  entity_type : EntityType
  aliases : List String := []
  properties : PropDict := []
  source_document : String := ""
  source_page : Nat := 0

inductive RelationType where
  | requiere_egreso_de | combina_con | pertenece_a | otorga_titulo
  | es_correlativa_de | es_requisito_para | se_dicta_en | regula
  | tiene_plazo | aplica_a | contactar_para | documentado_en
  deriving DecidableEq, Repr

def RelationType.value : RelationType → String
  | .requiere_egreso_de => "requiere_egreso_de"
  | .combina_con => "combina_con"
  | .pertenece_a => "pertenece_a"
  | .otorga_titulo => "otorga_titulo"
  | .es_correlativa_de => "es_correlativa_de"
  | .es_requisito_para => "es_requisito_para"
  | .se_dicta_en => "se_dicta_en"
  | .regula => "regula"
  | .tiene_plazo => "tiene_plazo"
  | .aplica_a => "aplica_a"
  | .contactar_para => "contactar_para"
  | .documentado_en => "documentado_en"

structure Relationship where
  source_entity_id : String
  target_entity_id : String
  relation_type : RelationType
  properties : PropDict := []
  source_text : String := ""

def entityIds (entities : List Entity) : List String :=
  entities.map (·.entity_id)

/-- `RelationshipMapper._get_known_relationships`: the hard-coded domain
axioms, in source order.  Note that the deadline axioms target the fixed
ids `plazo_10_bimestres` / `plazo_maestria` and the title axioms target
`titulo_<name>`, without membership checks on those targets. -/
def knownRelationships (entities : List Entity) : List Relationship :=
  let ids := entityIds entities
  (if ids.contains "prog_MIA" && ids.contains "prog_CEIA" then
    [{ source_entity_id := "prog_MIA", target_entity_id := "prog_CEIA",
       relation_type := .requiere_egreso_de, properties := [("weight", .q 1)],
       source_text := "La MIA requiere haber egresado de la CEIA" }]
   else []) ++
  (if ids.contains "prog_MIAE" then
    (if ids.contains "prog_CEIA" then
      [{ source_entity_id := "prog_MIAE", target_entity_id := "prog_CEIA",
         relation_type := .combina_con, properties := [("weight", .q 1)],
         source_text := "La MIAE combina la CEIA y la CESE" }]
     else []) ++
    (if ids.contains "prog_CESE" then
      [{ source_entity_id := "prog_MIAE", target_entity_id := "prog_CESE",
         relation_type := .combina_con, properties := [("weight", .q 1)],
         source_text := "La MIAE combina la CEIA y la CESE" }]
     else [])
   else []) ++
  (if ids.contains "prog_MIoT" && ids.contains "prog_CEIoT" then
    [{ source_entity_id := "prog_MIoT", target_entity_id := "prog_CEIoT",
       relation_type := .requiere_egreso_de, properties := [("weight", .q 1)],
       source_text := "La MIoT requiere haber egresado de la CEIoT" }]
   else []) ++
  (if ids.contains "mat_GdP" && ids.contains "mat_TTFA" then
    [{ source_entity_id := "mat_TTFA", target_entity_id := "mat_GdP",
       relation_type := .es_requisito_para, properties := [("weight", .q 1)],
       source_text := "Para inscribirse en TTFA es necesario haber aprobado GdP" }]
   else []) ++
  (if ids.contains "mat_TTFA" && ids.contains "mat_TTFB" then
    [{ source_entity_id := "mat_TTFB", target_entity_id := "mat_TTFA",
       relation_type := .es_requisito_para, properties := [("weight", .q 1)],
       source_text := "Para inscribirse en TTFB es necesario haber aprobado TTFA" }]
   else []) ++
  (["mat_GdP", "mat_GTI", "mat_TTFA", "mat_TTFB"].flatMap fun matId =>
    if ids.contains matId then
      ["prog_CEIA", "prog_CESE", "prog_CEIoT"].flatMap fun progId =>
        if ids.contains progId then
          [{ source_entity_id := matId, target_entity_id := progId,
             relation_type := .pertenece_a,
             properties := [("weight", .q (8/10))] }]
        else []
    else []) ++
  (entities.flatMap fun entity =>
    if entity.entity_type = .programa then
      if entity.properties.getStr "degree_level" = "especializacion" then
        [{ source_entity_id := entity.entity_id,
           target_entity_id := "plazo_10_bimestres",
           relation_type := .tiene_plazo,
           properties := [("plazo", .s "10 bimestres (2 años corridos)")],
           source_text := "Las especializaciones tienen un plazo de 10 bimestres" }]
      else if entity.properties.getStr "degree_level" = "maestria" then
        [{ source_entity_id := entity.entity_id,
           target_entity_id := "plazo_maestria",
           relation_type := .tiene_plazo,
           properties := [("plazo", .s "2+2 años")],
           source_text := "Las maestrías tienen un plazo de 2 años + 2 años para tesis" }]
      else []
    else []) ++
  (entities.flatMap fun entity =>
    if entity.entity_type = .programa ∧ entity.properties.getStr "title" ≠ "" then
      [{ source_entity_id := entity.entity_id,
         target_entity_id := "titulo_" ++ entity.name,
         relation_type := .otorga_titulo,
         properties := [("titulo", .s (entity.properties.getStr "title"))] }]
    else []) ++
  (if ids.contains "inst_LSE" && ids.contains "inst_FIUBA" then
    [{ source_entity_id := "inst_LSE", target_entity_id := "inst_FIUBA",
       relation_type := .pertenece_a }]
   else []) ++
  (if ids.contains "inst_FIUBA" && ids.contains "inst_UBA" then
    [{ source_entity_id := "inst_FIUBA", target_entity_id := "inst_UBA",
       relation_type := .pertenece_a }]
   else [])

/-! ### The `networkx.DiGraph` as used by `KnowledgeGraphBuilder`. -/

/-- Node attributes; `add_entity` sets all five, placeholders created by
`add_relationship` set only `name` and `entity_type` (the remaining
fields model the defaults the readers use for absent attributes). -/
structure NodeData where
  name : String
  entity_type : String
  aliases : List String := []
  properties : PropDict := []
  source_document : String := ""

structure EdgeData where
  relation_type : String
  properties : PropDict := []
  source_text : String := ""

structure DiGraph where
  nodes : List (String × NodeData) := []
  edges : List ((String × String) × EdgeData) := []

def DiGraph.hasNode (g : DiGraph) (id : String) : Bool :=
  g.nodes.any (fun p => p.1 = id)

/-- `nx.DiGraph.add_node` with all attributes given: update in place when
the node exists, append otherwise. -/
def DiGraph.setNode (g : DiGraph) (id : String) (d : NodeData) : DiGraph :=
  if g.hasNode id then
    { g with nodes := g.nodes.map fun p => if p.1 = id then (id, d) else p }
  else
    { g with nodes := g.nodes ++ [(id, d)] }

/-- `KnowledgeGraphBuilder.add_entity`. -/
def addEntity (g : DiGraph) (e : Entity) : DiGraph :=
  g.setNode e.entity_id
    { name := e.name, entity_type := e.entity_type.value,
      aliases := e.aliases, properties := e.properties,
      source_document := e.source_document }

/-- The placeholder node `add_relationship` creates for a missing
endpoint. -/
def placeholderNode (id : String) : NodeData :=
  { name := id, entity_type := "unknown" }

/-- `nx.DiGraph.add_edge`: one edge per ordered pair; on an existing pair
the attribute dict is updated (all three attributes are passed, so they
are overwritten). -/
def DiGraph.addEdge (g : DiGraph) (st : String × String) (d : EdgeData) : DiGraph :=
  if g.edges.any (fun p => p.1 = st) then
    { g with edges := g.edges.map fun p => if p.1 = st then (st, d) else p }
  else
    { g with edges := g.edges ++ [(st, d)] }

/-- One `if relationship.… not in self.graph: add_node(placeholder)`
block of `add_relationship`. -/
def DiGraph.ensureNode (g : DiGraph) (id : String) : DiGraph :=
  if g.hasNode id then g
  else { g with nodes := g.nodes ++ [(id, placeholderNode id)] }

/-- `KnowledgeGraphBuilder.add_relationship`. -/
def addRelationship (g : DiGraph) (r : Relationship) : DiGraph :=
  (((g.ensureNode r.source_entity_id).ensureNode r.target_entity_id).addEdge
    (r.source_entity_id, r.target_entity_id)
    { relation_type := r.relation_type.value, properties := r.properties,
      source_text := r.source_text })

/-- `merge_duplicate_entities` builds an alias map but performs no graph
mutation; it is the identity on the graph. -/
def mergeDuplicateEntities (g : DiGraph) : DiGraph := g

/-- `KnowledgeGraphBuilder.build_graph`: fresh graph, all entities, then
all relationships, then the (no-op) duplicate merge. -/
def buildGraph (entities : List Entity) (relationships : List Relationship) :
    DiGraph :=
  mergeDuplicateEntities
    (relationships.foldl addRelationship (entities.foldl addEntity {}))

def DiGraph.edgeLookup (g : DiGraph) (st : String × String) : Option EdgeData :=
  (g.edges.find? (fun p => p.1 = st)).map (·.2)

end GraphKG


namespace GraphKG

/-- A sample entity set for exercising the deadline axiom: one program
entity, no deadline entity. -/
def soloCEIA : Entity :=
  { entity_id := "prog_CEIA", name := "CEIA", entity_type := .programa,
    properties := [("degree_level", .s "especializacion")] }

lemma mem_if_singletonB {α : Type} {b : Bool} {x rel : α}
    (h : rel ∈ (if b then [x] else ([] : List α))) : b = true ∧ rel = x := by
  cases b <;> simp_all

lemma contains_mem {l : List String} {a : String}
    (h : l.contains a = true) : a ∈ l := by
  simpa using h

lemma addEdge_nodes (g : DiGraph) (st : String × String) (d : EdgeData) :
    (g.addEdge st d).nodes = g.nodes := by
  unfold DiGraph.addEdge
  split <;> rfl

lemma ensureNode_mem_self (g : DiGraph) (id : String)
    (h : g.hasNode id = false) :
    (id, placeholderNode id) ∈ (g.ensureNode id).nodes := by
  unfold DiGraph.ensureNode
  rw [if_neg (by simp [h])]
  simp

lemma ensureNode_mem_mono (g : DiGraph) (id : String) {x : String × NodeData}
    (h : x ∈ g.nodes) : x ∈ (g.ensureNode id).nodes := by
  unfold DiGraph.ensureNode
  split
  · exact h
  · exact List.mem_append_left _ h

lemma hasNode_ensureNode_of_not (g : DiGraph) (i j : String)
    (hj : g.hasNode j = false)
    (h : (g.ensureNode i).hasNode j = true) : i = j := by
  unfold DiGraph.ensureNode at h
  split at h
  · rw [h] at hj
    exact absurd hj (by simp)
  · unfold DiGraph.hasNode at h hj
    simp only [List.any_append, List.any_cons, List.any_nil,
      Bool.or_false, Bool.or_eq_true, decide_eq_true_eq] at h
    rcases h with h | h
    · rw [hj] at h
      exact absurd h (by simp)
    · exact h

lemma ensureNode_edges (g : DiGraph) (id : String) :
    (g.ensureNode id).edges = g.edges := by
  unfold DiGraph.ensureNode
  split <;> rfl

/-- `add_relationship` creates every missing endpoint as a placeholder
node with `entity_type="unknown"`. -/
lemma addRelationship_placeholder (g : DiGraph) (r : Relationship) :
    (g.hasNode r.source_entity_id = false →
      (r.source_entity_id, placeholderNode r.source_entity_id)
        ∈ (addRelationship g r).nodes) ∧
    (g.hasNode r.target_entity_id = false →
      (r.target_entity_id, placeholderNode r.target_entity_id)
        ∈ (addRelationship g r).nodes) := by
  obtain ⟨src, tgt, rt, props, stext⟩ := r
  unfold addRelationship
  rw [addEdge_nodes]
  constructor
  · intro hs
    exact ensureNode_mem_mono _ _ (ensureNode_mem_self g _ hs)
  · intro ht
    by_cases h1 : (g.ensureNode src).hasNode tgt
    · have heq : src = tgt := hasNode_ensureNode_of_not g _ _ ht h1
      subst heq
      exact ensureNode_mem_mono _ _ (ensureNode_mem_self g _ ht)
    · exact ensureNode_mem_self _ _ (Bool.eq_false_iff.mpr h1)

lemma find_replace (st : String × String) (d : EdgeData) :
    ∀ l : List ((String × String) × EdgeData),
      l.any (fun p => p.1 = st) = true →
      (l.map (fun p => if p.1 = st then (st, d) else p)).find?
          (fun p => p.1 = st) = some (st, d) := by
  intro l h
  induction l with
  | nil => simp at h
  | cons hd tl ih =>
    by_cases hh : hd.1 = st
    · simp [hh, List.find?]
    · simp only [List.any_cons, Bool.or_eq_true, decide_eq_true_eq] at h
      rcases h with h | h
      · exact absurd h hh
      · simpa [hh, List.find?] using ih h

lemma find_appended (st : String × String) (d : EdgeData)
    (l : List ((String × String) × EdgeData))
    (h : l.any (fun p => p.1 = st) = false) :
    (l ++ [(st, d)]).find? (fun p => p.1 = st) = some (st, d) := by
  induction l with
  | nil => simp [List.find?]
  | cons hd tl ih =>
    simp only [List.any_cons, Bool.or_eq_false_iff, decide_eq_false_iff_not] at h
    simpa [List.find?, h.1] using ih h.2

lemma addEdge_lookup (g : DiGraph) (st : String × String) (d : EdgeData) :
    (g.addEdge st d).edgeLookup st = some d := by
  unfold DiGraph.addEdge DiGraph.edgeLookup
  by_cases h : g.edges.any (fun p => p.1 = st)
  · simp only [if_pos h]
    rw [find_replace st d g.edges h]
    rfl
  · simp only [if_neg h]
    rw [find_appended st d g.edges (Bool.eq_false_iff.mpr h)]
    rfl

/-- Adding a relationship makes its attribute record the one stored at
its `(source, target)` key. -/
lemma addRelationship_lookup (g : DiGraph) (r : Relationship) :
    (addRelationship g r).edgeLookup (r.source_entity_id, r.target_entity_id)
      = some { relation_type := r.relation_type.value,
               properties := r.properties, source_text := r.source_text } := by
  unfold addRelationship
  exact addEdge_lookup _ _ _

lemma addEdge_keys_nodup (g : DiGraph) (st : String × String) (d : EdgeData)
    (h : (g.edges.map (·.1)).Nodup) :
    ((g.addEdge st d).edges.map (·.1)).Nodup := by
  unfold DiGraph.addEdge
  by_cases hany : g.edges.any (fun p => p.1 = st)
  · simp only [if_pos hany]
    have hkeys : (g.edges.map (fun p => if p.1 = st then (st, d) else p)).map (·.1)
        = g.edges.map (·.1) := by
      rw [List.map_map]
      apply List.map_congr_left
      intro p _
      by_cases hp : p.1 = st
      · simp [hp]
      · simp [hp]
    rw [hkeys]
    exact h
  · simp only [if_neg hany]
    rw [List.map_append]
    refine List.Nodup.append h (by simp) ?_
    intro k hk1 hk2
    simp only [List.map_cons, List.map_nil, List.mem_singleton] at hk2
    subst hk2
    simp only [List.mem_map] at hk1
    obtain ⟨p, hp, hpk⟩ := hk1
    exact hany (List.any_eq_true.mpr ⟨p, hp, by simpa using hpk⟩)

lemma addRelationship_keys_nodup (g : DiGraph) (r : Relationship)
    (h : (g.edges.map (·.1)).Nodup) :
    ((addRelationship g r).edges.map (·.1)).Nodup := by
  unfold addRelationship
  apply addEdge_keys_nodup
  rw [ensureNode_edges, ensureNode_edges]
  exact h

lemma setNode_edges (g : DiGraph) (id : String) (d : NodeData) :
    (g.setNode id d).edges = g.edges := by
  unfold DiGraph.setNode
  split <;> rfl

lemma foldl_addEntity_edges (g : DiGraph) (ents : List Entity) :
    (ents.foldl addEntity g).edges = g.edges := by
  induction ents generalizing g with
  | nil => rfl
  | cons e t ih => rw [List.foldl_cons, ih, addEntity, setNode_edges]

lemma foldl_addRelationship_keys_nodup (g : DiGraph) (rels : List Relationship)
    (h : (g.edges.map (·.1)).Nodup) :
    (((rels.foldl addRelationship g).edges).map (·.1)).Nodup := by
  induction rels generalizing g with
  | nil => exact h
  | cons r t ih =>
    rw [List.foldl_cons]
    exact ih _ (addRelationship_keys_nodup g r h)

end GraphKG

/-- C5 counterexample: on the entity set containing only the `prog_CEIA`
program entity (degree level `especializacion`), the hard-coded deadline
axiom emits the edge `prog_CEIA —tiene_plazo→ plazo_10_bimestres` whose
target is not in the input entity set — so it is not true that only
regex axioms emit endpoints outside the set. -/
theorem C5_counterexample :
    ∃ rel ∈ GraphKG.knownRelationships [GraphKG.soloCEIA],
      rel.target_entity_id = "plazo_10_bimestres" ∧
      rel.target_entity_id ∉ GraphKG.entityIds [GraphKG.soloCEIA] := by
  have h : GraphKG.knownRelationships [GraphKG.soloCEIA] =
      [{ source_entity_id := "prog_CEIA",
         target_entity_id := "plazo_10_bimestres",
         relation_type := .tiene_plazo,
         properties := [("plazo", .s "10 bimestres (2 años corridos)")],
         source_text := "Las especializaciones tienen un plazo de 10 bimestres" }] := by
    rfl
  rw [h]
  exact ⟨_, List.mem_singleton.mpr rfl, rfl, by decide⟩

/-- C5 (amended): every edge emitted by `_get_known_relationships` has
its source in the input entity set, and its target is either in the set
or one of the fixed deadline targets `plazo_10_bimestres` /
`plazo_maestria` or a `titulo_<name>` target derived from a program
entity of the set — i.e. the deadline and title *domain* axioms (not the
regex axioms) are the ones that can emit endpoints outside the set; any
endpoint missing from the graph is created by `add_relationship` as an
`entity_type="unknown"` placeholder, whichever axiom produced the edge. -/
theorem C5_domain_axiom_endpoints (entities : List GraphKG.Entity)
    (rel : GraphKG.Relationship)
    (hmem : rel ∈ GraphKG.knownRelationships entities) :
    (rel.source_entity_id ∈ GraphKG.entityIds entities ∧
      (rel.target_entity_id ∈ GraphKG.entityIds entities ∨
       rel.target_entity_id = "plazo_10_bimestres" ∨
       rel.target_entity_id = "plazo_maestria" ∨
       ∃ e ∈ entities, rel.target_entity_id = "titulo_" ++ e.name))
    ∧ (∀ (g : GraphKG.DiGraph) (r : GraphKG.Relationship),
        (g.hasNode r.source_entity_id = false →
          (r.source_entity_id, GraphKG.placeholderNode r.source_entity_id)
            ∈ (GraphKG.addRelationship g r).nodes) ∧
        (g.hasNode r.target_entity_id = false →
          (r.target_entity_id, GraphKG.placeholderNode r.target_entity_id)
            ∈ (GraphKG.addRelationship g r).nodes)) := by
  refine ⟨?_, fun g r => GraphKG.addRelationship_placeholder g r⟩
  simp only [GraphKG.knownRelationships, List.mem_append] at hmem
  rcases hmem with ((((((((h | h) | h) | h) | h) | h) | h) | h) | h) | h
  · obtain ⟨hc, hrel⟩ := GraphKG.mem_if_singletonB h
    rw [Bool.and_eq_true] at hc
    subst hrel
    exact ⟨GraphKG.contains_mem hc.1, Or.inl (GraphKG.contains_mem hc.2)⟩
  · split at h
    · rcases List.mem_append.mp h with h2 | h2
      all_goals {
        obtain ⟨hc, hrel⟩ := GraphKG.mem_if_singletonB h2
        subst hrel
        exact ⟨GraphKG.contains_mem (by assumption),
          Or.inl (GraphKG.contains_mem hc)⟩ }
    · simp at h
  · obtain ⟨hc, hrel⟩ := GraphKG.mem_if_singletonB h
    rw [Bool.and_eq_true] at hc
    subst hrel
    exact ⟨GraphKG.contains_mem hc.1, Or.inl (GraphKG.contains_mem hc.2)⟩
  · obtain ⟨hc, hrel⟩ := GraphKG.mem_if_singletonB h
    rw [Bool.and_eq_true] at hc
    subst hrel
    exact ⟨GraphKG.contains_mem hc.2, Or.inl (GraphKG.contains_mem hc.1)⟩
  · obtain ⟨hc, hrel⟩ := GraphKG.mem_if_singletonB h
    rw [Bool.and_eq_true] at hc
    subst hrel
    exact ⟨GraphKG.contains_mem hc.2, Or.inl (GraphKG.contains_mem hc.1)⟩
  · simp only [List.mem_flatMap] at h
    obtain ⟨matId, _, h1⟩ := h
    split at h1
    · simp only [List.mem_flatMap] at h1
      obtain ⟨progId, _, h2⟩ := h1
      split at h2
      · rw [List.mem_singleton] at h2
        subst h2
        exact ⟨GraphKG.contains_mem (by assumption),
          Or.inl (GraphKG.contains_mem (by assumption))⟩
      · simp at h2
    · simp at h1
  · simp only [List.mem_flatMap] at h
    obtain ⟨e, he, h1⟩ := h
    split at h1
    · split at h1
      · rw [List.mem_singleton] at h1
        subst h1
        exact ⟨List.mem_map.mpr ⟨e, he, rfl⟩, Or.inr (Or.inl rfl)⟩
      · split at h1
        · rw [List.mem_singleton] at h1
          subst h1
          exact ⟨List.mem_map.mpr ⟨e, he, rfl⟩, Or.inr (Or.inr (Or.inl rfl))⟩
        · simp at h1
    · simp at h1
  · simp only [List.mem_flatMap] at h
    obtain ⟨e, he, h1⟩ := h
    split at h1
    · rw [List.mem_singleton] at h1
      subst h1
      exact ⟨List.mem_map.mpr ⟨e, he, rfl⟩, Or.inr (Or.inr (Or.inr ⟨e, he, rfl⟩))⟩
    · simp at h1
  · obtain ⟨hc, hrel⟩ := GraphKG.mem_if_singletonB h
    rw [Bool.and_eq_true] at hc
    subst hrel
    exact ⟨GraphKG.contains_mem hc.1, Or.inl (GraphKG.contains_mem hc.2)⟩
  · obtain ⟨hc, hrel⟩ := GraphKG.mem_if_singletonB h
    rw [Bool.and_eq_true] at hc
    subst hrel
    exact ⟨GraphKG.contains_mem hc.1, Or.inl (GraphKG.contains_mem hc.2)⟩

/-- A two-entity set for exercising the MIA→CEIA prerequisite axiom. -/
def GraphKG.miaCeiaEntities : List GraphKG.Entity :=
  [{ entity_id := "prog_MIA", name := "MIA", entity_type := .programa },
   { entity_id := "prog_CEIA", name := "CEIA", entity_type := .programa }]

/-- The edge the MIA→CEIA axiom emits. -/
def GraphKG.miaRel : GraphKG.Relationship :=
  { source_entity_id := "prog_MIA", target_entity_id := "prog_CEIA",
    relation_type := .requiere_egreso_de, properties := [("weight", .q 1)],
    source_text := "La MIA requiere haber egresado de la CEIA" }

/-- Witness for `C5_domain_axiom_endpoints` at the MIA→CEIA axiom. -/
theorem C5_domain_axiom_endpoints_witness :
    (∃ rel, rel ∈ GraphKG.knownRelationships GraphKG.miaCeiaEntities ∧
      (rel.source_entity_id ∈ GraphKG.entityIds GraphKG.miaCeiaEntities ∧
        (rel.target_entity_id ∈ GraphKG.entityIds GraphKG.miaCeiaEntities ∨
         rel.target_entity_id = "plazo_10_bimestres" ∨
         rel.target_entity_id = "plazo_maestria" ∨
         ∃ e ∈ GraphKG.miaCeiaEntities,
           rel.target_entity_id = "titulo_" ++ e.name))) := by
  have hmem : GraphKG.miaRel
      ∈ GraphKG.knownRelationships GraphKG.miaCeiaEntities := by
    have h : GraphKG.knownRelationships GraphKG.miaCeiaEntities =
        [GraphKG.miaRel] := rfl
    rw [h]
    exact List.mem_singleton.mpr rfl
  exact ⟨_, hmem, (C5_domain_axiom_endpoints GraphKG.miaCeiaEntities _ hmem).1⟩

/-- C10 (confirmed, implicit claim): the built graph keeps at most one
edge per ordered `(source, target)` pair — the edge-key list of
`build_graph`'s output has no duplicates — and adding a second
relationship on the same ordered pair overwrites the stored relation
kind, properties and evidence text with the second one's. -/
theorem C10_single_edge_per_pair :
    (∀ (ents : List GraphKG.Entity) (rels : List GraphKG.Relationship),
      (((GraphKG.buildGraph ents rels).edges).map (·.1)).Nodup)
    ∧ (∀ (g : GraphKG.DiGraph) (r1 r2 : GraphKG.Relationship),
        r1.source_entity_id = r2.source_entity_id →
        r1.target_entity_id = r2.target_entity_id →
        (GraphKG.addRelationship (GraphKG.addRelationship g r1) r2).edgeLookup
            (r2.source_entity_id, r2.target_entity_id)
          = some { relation_type := r2.relation_type.value,
                   properties := r2.properties,
                   source_text := r2.source_text }) := by
  constructor
  · intro ents rels
    unfold GraphKG.buildGraph GraphKG.mergeDuplicateEntities
    apply GraphKG.foldl_addRelationship_keys_nodup
    rw [GraphKG.foldl_addEntity_edges]
    simp
  · intro g r1 r2 _ _
    exact GraphKG.addRelationship_lookup _ r2

/-- Witness for `C10_single_edge_per_pair`: two relations on the pair
`("a", "b")` with different kinds; the second one's attributes win. -/
theorem C10_single_edge_per_pair_witness :
    (GraphKG.addRelationship (GraphKG.addRelationship {}
        { source_entity_id := "a", target_entity_id := "b",
          relation_type := .regula })
        { source_entity_id := "a", target_entity_id := "b",
          relation_type := .pertenece_a }).edgeLookup ("a", "b")
      = some { relation_type := "pertenece_a", properties := [],
               source_text := "" } :=
  C10_single_edge_per_pair.2 {}
    { source_entity_id := "a", target_entity_id := "b",
      relation_type := .regula }
    { source_entity_id := "a", target_entity_id := "b",
      relation_type := .pertenece_a } rfl rfl

/-! ## Chunker (`chunker.py`)

`DocumentChunker` with its three strategies.  The `uuid.uuid4().hex[:8]`
draw of `chunk_document` is modelled by a supply `uuids : Nat → String`
indexed by the enumeration position; a run of the program corresponds to
one supply.

Token estimation: the code computes `int(words * 1.3)`; since the IEEE
double closest to `1.3` is slightly above `13/10` and `words` is far
below `2^46`, the product truncates to `⌊words·13/10⌋`, which is what
`estimateTokens` computes in exact arithmetic. -/

namespace Chunker

open PyStr

inductive ChunkStrategy where
  | fixed_size | semantic | faq_qa_pairs
  deriving DecidableEq, Repr

def ChunkStrategy.value : ChunkStrategy → String
  | .fixed_size => "fixed_size"
  | .semantic => "semantic"
  | .faq_qa_pairs => "faq_qa_pairs"

structure Chunk where
  chunk_id : String := ""
  text : String
  document_name : String
  document_type : String
  page_numbers : List Nat := []
  section_title : String := ""
  chunk_index : Nat := 0
  strategy : String := ""
  metadata : List (String × String) := []
  token_count : Nat := 0
  deriving DecidableEq, Repr

/-- The four `DocumentChunker.__init__` parameters with their defaults. -/
structure ChunkerConfig where
  fixed_chunk_size : Nat := 512
  fixed_overlap : Nat := 128
  max_chunk_tokens : Nat := 768
  min_chunk_tokens : Nat := 50

/-- `_estimate_tokens`: `int(len(text.split()) * 1.3)`. -/
def estimateTokens (text : String) : Nat :=
  ((splitWs text).length * 13) / 10

/-- `re.sub` with a literal pattern: replace every non-overlapping
occurrence, scanning left to right.  `fuel = length` suffices. -/
def replaceAllAux (pat rep : List Char) : Nat → List Char → List Char
  | _, [] => []
  | 0, l => l
  | fuel + 1, c :: t =>
    if pat ≠ [] ∧ pat.isPrefixOf (c :: t) then
      rep ++ replaceAllAux pat rep fuel ((c :: t).drop pat.length)
    else
      c :: replaceAllAux pat rep fuel t

def replaceAll (pat rep : List Char) (l : List Char) : List Char :=
  replaceAllAux pat rep l.length l

/-- The uppercase set of the sentence-split lookahead
`[A-ZÁÉÍÓÚÑ¿¡]`. -/
def isSentStart (c : Char) : Bool :=
  ('A' ≤ c && c ≤ 'Z') || c ∈ ['Á', 'É', 'Í', 'Ó', 'Ú', 'Ñ', '¿', '¡']

/-- The lookbehind `(?<=[.!?])`: the previously consumed character (the
head of the reversed accumulator) is a sentence terminator. -/
def prevTerminator : List Char → Bool
  | p :: _ => p = '.' || p = '!' || p = '?'
  | [] => false

/-- `re.split(r"(?<=[.!?])\s+(?=[A-ZÁÉÍÓÚÑ¿¡])", text)`: a maximal
whitespace run directly after `.`/`!`/`?` and directly before an
uppercase/inverted-mark character separates sentences.  `acc` is the
current part reversed; the previous character is `acc`'s head. -/
def sentSplitAux : Nat → List Char → List Char → List (List Char)
  | _, acc, [] => [acc.reverse]
  | 0, acc, l => [acc.reverse ++ l]
  | fuel + 1, acc, c :: t =>
    if isSpace c && prevTerminator acc then
      let run := PyStr.dropLeading t
      match run with
      | d :: _ =>
        if isSentStart d then acc.reverse :: sentSplitAux fuel [] run
        else sentSplitAux fuel (c :: acc) t
      | [] => sentSplitAux fuel (c :: acc) t
    else
      sentSplitAux fuel (c :: acc) t

/-- `_split_sentences`: protect the six abbreviations, split, restore,
strip, drop empties. -/
def splitSentences (text : String) : List String :=
  let l := text.data
  let l := replaceAll "Art.".data "Art§".data l
  let l := replaceAll "Inc.".data "Inc§".data l
  let l := replaceAll "Dr.".data "Dr§".data l
  let l := replaceAll "Ing.".data "Ing§".data l
  let l := replaceAll "Esp.".data "Esp§".data l
  let l := replaceAll "Mag.".data "Mag§".data l
  let parts := sentSplitAux l.length [] l
  let parts := parts.map (replaceAll "§".data ".".data)
  (parts.map fun p => (⟨stripList p⟩ : String)).filter (fun s => s ≠ "")

/-- One step of the `_chunk_fixed_size` overlap computation: walk the
current sentences from the end, keeping whole sentences while the token
budget `fixed_overlap` is not exceeded. -/
def overlapWalk (cfg : ChunkerConfig) : List String → List String → Nat →
    List String × Nat
  | [], acc, tok => (acc, tok)
  | s :: rest, acc, tok =>
    let st := estimateTokens s
    if cfg.fixed_overlap < tok + st then (acc, tok)
    else overlapWalk cfg rest (s :: acc) (tok + st)

def overlapOf (cfg : ChunkerConfig) (cur : List String) : List String × Nat :=
  overlapWalk cfg cur.reverse [] 0

/-- Build one fixed-size chunk from the accumulated sentences. -/
def fixedChunk (docName docType sectionPref : String) (cur : List String) :
    Chunk :=
  let chunkText := String.intercalate " " cur
  let chunkText := if sectionPref ≠ "" then
      "[" ++ sectionPref ++ "]\n" ++ chunkText
    else chunkText
  { chunk_id := "", text := chunkText, document_name := docName,
    document_type := docType, section_title := sectionPref }

/-- The sentence loop of `_chunk_fixed_size`. -/
def fixedLoop (cfg : ChunkerConfig) (docName docType sectionPref : String) :
    List String → List String → Nat → List Chunk
  | [], cur, _ =>
    if cur ≠ [] then [fixedChunk docName docType sectionPref cur] else []
  | s :: rest, cur, curTok =>
    let st := estimateTokens s
    if cfg.fixed_chunk_size < curTok + st ∧ cur ≠ [] then
      let (ov, ovTok) := overlapOf cfg cur
      fixedChunk docName docType sectionPref cur ::
        fixedLoop cfg docName docType sectionPref rest (ov ++ [s]) (ovTok + st)
    else
      fixedLoop cfg docName docType sectionPref rest (cur ++ [s]) (curTok + st)

/-- `_chunk_fixed_size`. -/
def chunkFixedSize (cfg : ChunkerConfig)
    (text docName docType sectionPref : String) : List Chunk :=
  fixedLoop cfg docName docType sectionPref (splitSentences text) [] 0

/-! ### Semantic strategy. -/

/-- Split before each `'\n'` whose suffix satisfies the zero-width
lookahead `la` (the `'\n'` itself is consumed as separator), as
`re.split(r"\n(?=…)")` does. -/
def splitLookahead (la : List Char → Bool) : List Char → List (List Char)
  | [] => [[]]
  | c :: t =>
    if c = '\n' && la t then [] :: splitLookahead la t
    else match splitLookahead la t with
      | [] => [[c]]
      | h :: r => (c :: h) :: r

/-- Lookahead of the article pattern `(?=Art\.\s*\d+)`. -/
def articleLookahead (t : List Char) : Bool :=
  "Art.".data.isPrefixOf t &&
    (match (AntiHall.takeSpaces (t.drop 4)).2 with
     | d :: _ => d.isDigit
     | [] => false)

/-- The uppercase class `[A-ZÁÉÍÓÚÑ]` of the header patterns. -/
def isUpperHdr (c : Char) : Bool :=
  ('A' ≤ c && c ≤ 'Z') || c ∈ ['Á', 'É', 'Í', 'Ó', 'Ú', 'Ñ']

/-- After the first class character: scan `[A-ZÁÉÍÓÚÑ\s]{5,}` with
backtracking — accept as soon as at least 5 class characters precede a
`'\n'` or `':'`. -/
def hdrScan : List Char → Nat → Bool
  | [], _ => false
  | c :: rest, n =>
    (decide (5 ≤ n) && (c = '\n' || c = ':')) ||
      ((isUpperHdr c || isSpace c) && hdrScan rest (n + 1))

/-- Lookahead of `(?=[A-ZÁÉÍÓÚÑ][A-ZÁÉÍÓÚÑ\s]{5,}(?:\n|:))`. -/
def headerLookahead (t : List Char) : Bool :=
  match t with
  | c :: rest => isUpperHdr c && hdrScan rest 0
  | [] => false

def takeRoman (l : List Char) : List Char × List Char :=
  match l with
  | [] => ([], [])
  | c :: cs =>
    if c ∈ ['I', 'V', 'X', 'L', 'C'] then
      let (d, r) := takeRoman cs
      (c :: d, r)
    else ([], l)

/-- `\s+` then one `[A-ZÁÉÍÓÚÑ]` character. -/
def spacesThenUpper (l : List Char) : Bool :=
  let (sp, r) := AntiHall.takeSpaces l
  !sp.isEmpty && (match r with
    | d :: _ => isUpperHdr d
    | [] => false)

/-- Lookahead of `(?=(?:[IVXLC]+\.|[0-9]+\.)\s+[A-ZÁÉÍÓÚÑ])`. -/
def numberedLookahead (t : List Char) : Bool :=
  (let (rom, r) := takeRoman t
   !rom.isEmpty && (match r with
     | '.' :: r2 => spacesThenUpper r2
     | _ => false)) ||
  (let (ds, r) := AntiHall.takeDigits t
   !ds.isEmpty && (match r with
     | '.' :: r2 => spacesThenUpper r2
     | _ => false))

/-- `re.match(r"(Art\.\s*\d+[^.]*\.?)", section)`, stripped: the section
title of an article chunk. -/
def articleTitle (sec : List Char) : String :=
  if "Art.".data.isPrefixOf sec then
    let r := sec.drop 4
    let (sp, r1) := AntiHall.takeSpaces r
    let (ds, r2) := AntiHall.takeDigits r1
    if ds.isEmpty then "" else
      let (np, r3) := (r2.takeWhile (fun c => c ≠ '.'), r2.dropWhile (fun c => c ≠ '.'))
      let dot := match r3 with
        | '.' :: _ => ['.']
        | _ => []
      (⟨stripList ("Art.".data ++ sp ++ ds ++ np ++ dot)⟩ : String)
  else ""

/-- First line of a section, stripped: the title of header/numbered
sections. -/
def firstLineTitle (sec : List Char) : String :=
  match splitOnChar '\n' sec with
  | l :: _ => ⟨stripList l⟩
  | [] => ""

/-- Make the chunks of one split attempt: strip each section, skip empty
ones, take the title with `titleOf`. -/
def sectionChunks (docName docType : String) (titleOf : List Char → String)
    (sections : List (List Char)) : List Chunk :=
  sections.filterMap fun sec =>
    let s := stripList sec
    if s.isEmpty then none
    else some { chunk_id := "", text := (⟨s⟩ : String), document_name := docName,
                document_type := docType, section_title := titleOf s }

/-- `_chunk_semantic`: try articles, uppercase headers, numbered
headings; first pattern producing more than one section wins; otherwise
one big chunk titled with the document name. -/
def chunkSemantic (text docName docType : String) : List Chunk :=
  let s1 := splitLookahead articleLookahead text.data
  if 1 < s1.length then sectionChunks docName docType articleTitle s1
  else
    let s2 := splitLookahead headerLookahead text.data
    if 1 < s2.length then sectionChunks docName docType firstLineTitle s2
    else
      let s3 := splitLookahead numberedLookahead text.data
      if 1 < s3.length then sectionChunks docName docType firstLineTitle s3
      else
        [{ chunk_id := "", text := text, document_name := docName,
           document_type := docType, section_title := docName }]

/-! ### FAQ Q&A strategy. -/

def isLowerCased (c : Char) : Bool :=
  ('a' ≤ c && c ≤ 'z') || c ∈ ['á', 'é', 'í', 'ó', 'ú', 'ñ', 'ü']

def isUpperCased (c : Char) : Bool :=
  ('A' ≤ c && c ≤ 'Z') || c ∈ ['Á', 'É', 'Í', 'Ó', 'Ú', 'Ñ', 'Ü']

/-- Python `str.isupper()`: at least one cased character, no lowercase
one (for the alphabet in play). -/
def pyIsUpper (l : List Char) : Bool :=
  l.any (fun c => isLowerCased c || isUpperCased c) && !(l.any isLowerCased)

/-- `re.match(r"^[A-ZÁÉÍÓÚÑ\s/]+$", stripped)`. -/
def upperSlashLine (l : List Char) : Bool :=
  !l.isEmpty && l.all (fun c => isUpperHdr c || isSpace c || c = '/')

/-- `re.match(r"^\d+[\.\)]\s", stripped)`. -/
def numberedQuestion (l : List Char) : Bool :=
  let (ds, r) := AntiHall.takeDigits l
  !ds.isEmpty && (match r with
    | c :: d :: _ => (c = '.' || c = ')') && isSpace d
    | _ => false)

/-- Question detection of `_chunk_faq_qa_pairs`. -/
def isQuestionLine (stripped : String) : Bool :=
  containsSub stripped "?" &&
    ("•".data.isPrefixOf stripped.data ||
     "-".data.isPrefixOf stripped.data ||
     "–".data.isPrefixOf stripped.data ||
     numberedQuestion stripped.data ||
     "¿".data.isPrefixOf stripped.data)

/-- `re.sub(r"^[•\-–]\s*", "", l)`. -/
def stripBullet (l : List Char) : List Char :=
  match l with
  | c :: t => if c = '•' || c = '-' || c = '–' then dropLeading t else l
  | [] => []

/-- `re.sub(r"^\d+[\.\)]\s*", "", l)`. -/
def stripNumber (l : List Char) : List Char :=
  let (ds, r) := AntiHall.takeDigits l
  if ds.isEmpty then l
  else match r with
    | c :: t => if c = '.' || c = ')' then dropLeading t else l
    | [] => l

/-- One emitted Q&A chunk. -/
def faqChunk (docName docType sec q : String) (ans : List String) : Chunk :=
  { chunk_id := "",
    text := "[Sección: " ++ sec ++ "]\nPregunta: " ++ q ++ "\nRespuesta: "
      ++ PyStr.strip (String.intercalate "\n" ans),
    document_name := docName, document_type := docType,
    section_title := sec, metadata := [("question", q)] }

structure FaqState where
  currentSection : String := "General"
  question : String := ""
  answerLines : List String := []
  inAnswer : Bool := false
  chunks : List Chunk := []

/-- One line of the `_chunk_faq_qa_pairs` scan. -/
def faqStep (docName docType : String) (st : FaqState) (line : String) :
    FaqState :=
  let stripped := PyStr.strip line
  if stripped = "" then
    if st.inAnswer then { st with answerLines := st.answerLines ++ [""] } else st
  else if pyIsUpper stripped.data && decide (5 < stripped.length) &&
      !containsSub stripped "?" && !("•".data.isPrefixOf stripped.data) then
    { st with currentSection := stripped }
  else if upperSlashLine stripped.data && decide (5 < stripped.length) then
    { st with currentSection := stripped }
  else if isQuestionLine stripped then
    let st' := if st.question ≠ "" ∧ st.answerLines ≠ [] then
        { st with chunks := st.chunks ++
            [faqChunk docName docType st.currentSection st.question st.answerLines] }
      else st
    { st' with question := (⟨stripNumber (stripBullet stripped.data)⟩ : String),
               answerLines := [], inAnswer := true }
  else if st.inAnswer then
    { st with answerLines := st.answerLines ++ [stripped] }
  else st

/-- `_chunk_faq_qa_pairs` with its semantic fallback. -/
def chunkFaqQaPairs (text docName docType : String) : List Chunk :=
  let final := (splitLines text).foldl (faqStep docName docType) {}
  let chunks := final.chunks ++
    (if final.question ≠ "" ∧ final.answerLines ≠ [] then
      [faqChunk docName docType final.currentSection final.question
        final.answerLines]
     else [])
  if chunks.isEmpty then chunkSemantic text docName docType else chunks

/-! ### Strategy selection and `chunk_document`. -/

def selectStrategy (docType : String) (_text : String) : ChunkStrategy :=
  if docType = "faq" then .faq_qa_pairs
  else if docType = "reglamento" then .semantic
  else if docType = "resolucion" then .semantic
  else if docType = "programa" then .semantic
  else .fixed_size

/-- The per-chunk assignment loop of `chunk_document`: index, token
count, strategy tag, and a fresh id `"<doc>_<i>_<uuid8>"` when the
chunk id is empty. -/
def assignChunk (uuids : Nat → String) (docName : String)
    (strategy : ChunkStrategy) (i : Nat) (c : Chunk) : Chunk :=
  { c with chunk_index := i,
           token_count := estimateTokens c.text,
           strategy := strategy.value,
           chunk_id := if c.chunk_id = "" then
               docName ++ "_" ++ toString i ++ "_" ++ uuids i
             else c.chunk_id }

/-- `DocumentChunker.chunk_document`.  Note: the oversize check of the
semantic branch reads `chunk.token_count` *before* the token counts are
assigned (they are still the dataclass default `0`), so the fixed-size
fallback for oversize semantic chunks can never fire; it is embedded
as written. -/
def chunkDocument (cfg : ChunkerConfig) (uuids : Nat → String)
    (text docName docType : String) (strategyArg : Option ChunkStrategy) :
    List Chunk :=
  let strategy := strategyArg.getD (selectStrategy docType text)
  let chunks :=
    match strategy with
    | .faq_qa_pairs => chunkFaqQaPairs text docName docType
    | .semantic =>
      (chunkSemantic text docName docType).flatMap fun c =>
        if cfg.max_chunk_tokens < c.token_count then
          chunkFixedSize cfg c.text docName docType c.section_title
        else [c]
    | .fixed_size => chunkFixedSize cfg text docName docType ""
  let assigned := chunks.enum.map fun p =>
    assignChunk uuids docName strategy p.1 p.2
  assigned.filter fun c => decide (cfg.min_chunk_tokens ≤ c.token_count)

end Chunker

namespace Chunker

/-- A test document of `n` one-letter words: `"a a … a"`. -/
def aWords : Nat → List Char
  | 0 => []
  | 1 => ['a']
  | n + 2 => 'a' :: ' ' :: aWords (n + 1)

lemma aWords_chars : ∀ n, ∀ c ∈ aWords n, c = 'a' ∨ c = ' ' := by
  intro n
  induction n using Nat.strong_induction_on with
  | _ n ih =>
    match n with
    | 0 => intro c hc; simp [aWords] at hc
    | 1 =>
      intro c hc
      simp only [aWords, List.mem_singleton] at hc
      exact Or.inl hc
    | n + 2 =>
      intro c hc
      simp only [aWords, List.mem_cons] at hc
      rcases hc with h | h | h
      · exact Or.inl h
      · exact Or.inr h
      · exact ih (n + 1) (by omega) c h

lemma aWords_splitWsAux : ∀ n, PyStr.splitWsAux (aWords n) [] = List.replicate n ['a'] := by
  intro n
  induction n using Nat.strong_induction_on with
  | _ n ih =>
    match n with
    | 0 => rfl
    | 1 => rfl
    | n + 2 =>
      show PyStr.splitWsAux ('a' :: ' ' :: aWords (n + 1)) [] = _
      have hstep : PyStr.splitWsAux ('a' :: ' ' :: aWords (n + 1)) []
          = ['a'] :: PyStr.splitWsAux (aWords (n + 1)) [] := rfl
      rw [hstep, ih (n + 1) (by omega)]
      rfl

lemma aWords_reverse_head : ∀ n, 0 < n → ∃ t, (aWords n).reverse = 'a' :: t := by
  intro n
  induction n using Nat.strong_induction_on with
  | _ n ih =>
    match n with
    | 0 => exact fun h0 => absurd h0 (by omega)
    | 1 => exact fun _ => ⟨[], rfl⟩
    | n + 2 =>
      intro _
      obtain ⟨t, ht⟩ := ih (n + 1) (by omega) (by omega)
      refine ⟨t ++ [' ', 'a'], ?_⟩
      show (('a' :: ' ' :: aWords (n + 1)).reverse) = _
      simp [ht]

lemma dropLeading_cons_a (t : List Char) :
    PyStr.dropLeading ('a' :: t) = 'a' :: t := by
  simp [PyStr.dropLeading, PyStr.isSpace]

lemma aWords_strip (n : Nat) (h : 0 < n) :
    PyStr.stripList (aWords n) = aWords n := by
  obtain ⟨t, ht⟩ := aWords_reverse_head n h
  unfold PyStr.stripList
  rw [ht, dropLeading_cons_a, ← ht, List.reverse_reverse]
  have : ∃ u, aWords n = 'a' :: u := by
    match n, h with
    | 1, _ => exact ⟨[], rfl⟩
    | n + 2, _ => exact ⟨' ' :: aWords (n + 1), rfl⟩
  obtain ⟨u, hu⟩ := this
  rw [hu, dropLeading_cons_a]

lemma replaceAllAux_absent (pat rep : List Char) (h : Char)
    (hp : pat.head? = some h) :
    ∀ fuel l, h ∉ l → replaceAllAux pat rep fuel l = l := by
  intro fuel
  induction fuel with
  | zero => intro l _; cases l <;> rfl
  | succ fuel ih =>
    intro l hl
    cases l with
    | nil => rfl
    | cons c t =>
      have hcond : ¬(pat ≠ [] ∧ pat.isPrefixOf (c :: t)) := by
        rintro ⟨-, hpre⟩
        cases pat with
        | nil => simp at hp
        | cons p ps =>
          obtain rfl : p = h := by simpa using hp
          simp only [List.isPrefixOf, List.cons_append, Bool.and_eq_true,
            beq_iff_eq] at hpre
          exact hl (hpre.1 ▸ List.mem_cons_self _ _)
      simp only [replaceAllAux, if_neg hcond]
      rw [ih t (fun hmem => hl (List.mem_cons_of_mem _ hmem))]

lemma replaceAll_absent (pat rep : List Char) (h : Char)
    (hp : pat.head? = some h) (l : List Char) (hl : h ∉ l) :
    replaceAll pat rep l = l :=
  replaceAllAux_absent pat rep h hp l.length l hl

lemma sentSplitAux_no_term : ∀ fuel acc l,
    (∀ c ∈ acc, ¬(c = '.' ∨ c = '!' ∨ c = '?')) →
    (∀ c ∈ l, ¬(c = '.' ∨ c = '!' ∨ c = '?')) →
    sentSplitAux fuel acc l = [acc.reverse ++ l] := by
  intro fuel
  induction fuel with
  | zero =>
    intro acc l _ _
    cases l <;> simp [sentSplitAux]
  | succ fuel ih =>
    intro acc l hacc hl
    cases l with
    | nil => simp [sentSplitAux]
    | cons c t =>
      have hcond : (PyStr.isSpace c && prevTerminator acc) = false := by
        cases acc with
        | nil => simp [prevTerminator]
        | cons p ps =>
          have hp := hacc p (List.mem_cons_self _ _)
          simp only [Bool.and_eq_false_iff]
          right
          simp only [prevTerminator, Bool.or_eq_false_iff,
            decide_eq_false_iff_not]
          exact ⟨⟨fun h => hp (Or.inl h), fun h => hp (Or.inr (Or.inl h))⟩,
            fun h => hp (Or.inr (Or.inr h))⟩
      simp only [sentSplitAux, hcond, Bool.false_eq_true, if_false]
      rw [ih (c :: acc) t
        (by
          intro d hd
          rcases List.mem_cons.mp hd with rfl | hd
          · exact hl d (List.mem_cons_self _ _)
          · exact hacc d hd)
        (fun d hd => hl d (List.mem_cons_of_mem _ hd))]
      simp

lemma aWords_no_char (n : Nat) (ch : Char) (h1 : ch ≠ 'a') (h2 : ch ≠ ' ') :
    ch ∉ aWords n := by
  intro hmem
  rcases aWords_chars n ch hmem with h | h
  · exact h1 h
  · exact h2 h

lemma splitSentences_aWords (n : Nat) (h : 0 < n) :
    splitSentences (⟨aWords n⟩ : String) = [(⟨aWords n⟩ : String)] := by
  unfold splitSentences
  show (((sentSplitAux _ [] _).map
      (replaceAll "§".data ".".data)).map _).filter _ = _
  have habs : ∀ pat rep : List Char, ∀ hc : Char, pat.head? = some hc →
      hc ≠ 'a' → hc ≠ ' ' →
      replaceAll pat rep (aWords n) = aWords n := by
    intro pat rep hc hp h1 h2
    exact replaceAll_absent pat rep hc hp _ (aWords_no_char n hc h1 h2)
  rw [show (⟨aWords n⟩ : String).data = aWords n from rfl]
  rw [habs "Art.".data "Art§".data 'A' rfl (by decide) (by decide)]
  rw [habs "Inc.".data "Inc§".data 'I' rfl (by decide) (by decide)]
  rw [habs "Dr.".data "Dr§".data 'D' rfl (by decide) (by decide)]
  rw [habs "Ing.".data "Ing§".data 'I' rfl (by decide) (by decide)]
  rw [habs "Esp.".data "Esp§".data 'E' rfl (by decide) (by decide)]
  rw [habs "Mag.".data "Mag§".data 'M' rfl (by decide) (by decide)]
  rw [sentSplitAux_no_term _ [] (aWords n) (by simp)
    (by
      intro c hc hterm
      rcases aWords_chars n c hc with rfl | rfl <;> simp at hterm)]
  simp only [List.reverse_nil, List.nil_append, List.map_cons, List.map_nil]
  rw [habs "§".data ".".data '§' rfl (by decide) (by decide)]
  rw [aWords_strip n h]
  have hne : (⟨aWords n⟩ : String) ≠ "" := by
    intro hcontra
    have : aWords n = [] := congrArg String.data hcontra
    match n, h, this with
    | 1, _, h2 => exact absurd h2 (by decide)
    | n + 2, _, h2 => exact absurd h2 (by simp [aWords])
  simp [hne]

lemma estimateTokens_aWords (n : Nat) :
    estimateTokens (⟨aWords n⟩ : String) = n * 13 / 10 := by
  unfold estimateTokens PyStr.splitWs
  rw [show (⟨aWords n⟩ : String).data = aWords n from rfl, aWords_splitWsAux n]
  simp

end Chunker

namespace Chunker

/-- Erase the (uuid-bearing) chunk id. -/
def stripId (c : Chunk) : Chunk := { c with chunk_id := "" }

lemma stripId_assignChunk (u1 u2 : Nat → String) (dn : String)
    (st : ChunkStrategy) (i : Nat) (c : Chunk) :
    stripId (assignChunk u1 dn st i c) = stripId (assignChunk u2 dn st i c) := rfl

lemma assign_filter_strip (u1 u2 : Nat → String) (dn : String)
    (st : ChunkStrategy) (mn : Nat) :
    ∀ l : List (Nat × Chunk),
      (((l.map fun p => assignChunk u1 dn st p.1 p.2).filter
          fun c => decide (mn ≤ c.token_count)).map stripId)
      = (((l.map fun p => assignChunk u2 dn st p.1 p.2).filter
          fun c => decide (mn ≤ c.token_count)).map stripId) := by
  intro l
  induction l with
  | nil => rfl
  | cons hd tl ih =>
    simp only [List.map_cons, List.filter_cons]
    have htok : (decide (mn ≤ (assignChunk u1 dn st hd.1 hd.2).token_count))
        = (decide (mn ≤ (assignChunk u2 dn st hd.1 hd.2).token_count)) := rfl
    rw [← htok]
    cases hb : decide (mn ≤ (assignChunk u1 dn st hd.1 hd.2).token_count) with
    | false =>
      simp only [Bool.false_eq_true, if_false]
      exact ih
    | true =>
      simp only [if_true, List.map_cons]
      rw [stripId_assignChunk u1 u2 dn st hd.1 hd.2, ih]

lemma chunkFixedSize_single_sentence (cfg : ChunkerConfig)
    (text dn dt : String) (h : splitSentences text = [text]) :
    chunkFixedSize cfg text dn dt ""
      = [{ chunk_id := "", text := text, document_name := dn,
           document_type := dt, section_title := "" }] := by
  unfold chunkFixedSize
  rw [h]
  have hstep : fixedLoop cfg dn dt "" [text] [] 0
      = fixedLoop cfg dn dt "" [] [text] (0 + estimateTokens text) := by
    simp only [fixedLoop]
    simp
  rw [hstep]
  simp only [fixedLoop]
  simp only [fixedChunk, ne_eq, not_false_eq_true, if_true]
  have hone : String.intercalate " " [text] = text := rfl
  simp [hone]

end Chunker

/-- C2 counterexample: two runs of `chunk_document` on the same input and
different uuid draws produce different chunk lists — each `chunk_id`
embeds a fresh `uuid4().hex[:8]` — while the chunk texts agree. -/
theorem C2_counterexample :
    Chunker.chunkDocument {} (fun _ => "aaaaaaaa")
        (String.intercalate " " (List.replicate 40 "a")) "doc" "otro" none
      ≠ Chunker.chunkDocument {} (fun _ => "bbbbbbbb")
        (String.intercalate " " (List.replicate 40 "a")) "doc" "otro" none
    ∧ (Chunker.chunkDocument {} (fun _ => "aaaaaaaa")
        (String.intercalate " " (List.replicate 40 "a")) "doc" "otro" none).map
          (fun c => c.text)
      = (Chunker.chunkDocument {} (fun _ => "bbbbbbbb")
        (String.intercalate " " (List.replicate 40 "a")) "doc" "otro" none).map
          (fun c => c.text) := by
  constructor
  · decide
  · decide

/-- C2 (amended): `chunk_document` is deterministic in everything except
the chunk ids: for any two uuid draws, the two outputs agree chunk by
chunk once `chunk_id` is erased (equal texts, document fields, section
titles, indices, strategy tags, metadata and token counts); the ids
themselves embed a fresh `uuid4` per run. -/
theorem C2_deterministic_modulo_ids (cfg : Chunker.ChunkerConfig)
    (u1 u2 : Nat → String) (text dn dt : String)
    (strat : Option Chunker.ChunkStrategy) :
    (Chunker.chunkDocument cfg u1 text dn dt strat).map Chunker.stripId
      = (Chunker.chunkDocument cfg u2 text dn dt strat).map Chunker.stripId := by
  unfold Chunker.chunkDocument
  exact Chunker.assign_filter_strip u1 u2 dn _ cfg.min_chunk_tokens _

/-- C3 (amended): the lower token bound always holds — every chunk
returned by `chunk_document` has `min_tokens ≤ token_count` (the final
filter enforces it); the upper bound is not enforced. -/
theorem C3_token_lower_bound (cfg : Chunker.ChunkerConfig)
    (u : Nat → String) (text dn dt : String)
    (strat : Option Chunker.ChunkStrategy) :
    ∀ c ∈ Chunker.chunkDocument cfg u text dn dt strat,
      cfg.min_chunk_tokens ≤ c.token_count := by
  intro c hc
  unfold Chunker.chunkDocument at hc
  simp only [List.mem_filter, decide_eq_true_eq] at hc
  exact hc.2

/-- Witness for `C3_token_lower_bound` at the 40-word document. -/
theorem C3_token_lower_bound_witness :
    ({} : Chunker.ChunkerConfig).min_chunk_tokens ≤
      (Chunker.Chunk.mk "doc_0_aaaaaaaa"
        (String.intercalate " " (List.replicate 40 "a")) "doc" "otro" [] ""
        0 "fixed_size" [] 52).token_count :=
  C3_token_lower_bound {} (fun _ => "aaaaaaaa")
    (String.intercalate " " (List.replicate 40 "a")) "doc" "otro" none
    (Chunker.Chunk.mk "doc_0_aaaaaaaa"
      (String.intercalate " " (List.replicate 40 "a")) "doc" "otro" [] ""
      0 "fixed_size" [] 52)
    (by decide)

/-- C3 counterexample: a document of 600 one-letter words (a single
"sentence", no terminators) is chunked — with the default limits 50/768
— into one chunk of `token_count = int(600·1.3) = 780 > 768`: the upper
token bound fails. -/
theorem C3_counterexample :
    ∃ c ∈ Chunker.chunkDocument {} (fun _ => "deadbeef")
        (⟨Chunker.aWords 600⟩ : String) "doc" "otro" none,
      768 < c.token_count := by
  have hsent := Chunker.splitSentences_aWords 600 (by norm_num)
  have hest : Chunker.estimateTokens (⟨Chunker.aWords 600⟩ : String) = 780 := by
    rw [Chunker.estimateTokens_aWords]
  have hfix := Chunker.chunkFixedSize_single_sentence {}
    (⟨Chunker.aWords 600⟩ : String) "doc" "otro" hsent
  have hsel : Chunker.selectStrategy "otro" (⟨Chunker.aWords 600⟩ : String)
      = .fixed_size := rfl
  have hout : Chunker.chunkDocument {} (fun _ => "deadbeef")
      (⟨Chunker.aWords 600⟩ : String) "doc" "otro" none
      = [{ chunk_id := "doc_0_deadbeef", text := (⟨Chunker.aWords 600⟩ : String),
           document_name := "doc", document_type := "otro",
           chunk_index := 0, strategy := "fixed_size", token_count := 780 }] := by
    unfold Chunker.chunkDocument
    simp only [Option.getD_none, hsel, hfix, List.enum, Chunker.assignChunk,
      hest]
    simp [Chunker.assignChunk, hest]
    refine ⟨by decide, rfl⟩
  rw [hout]
  exact ⟨_, List.mem_singleton.mpr rfl, by norm_num⟩

/-! ## FAISS vector store (`vector_store.py`)

`FAISSVectorStore` with `IndexFlatIP`: the index is the list of stored
vectors in insertion order, similarity is the inner product.  The
`faiss.normalize_L2` calls cannot be expressed in `ℚ` (they divide by a
square root); the model's vectors and queries stand for the values
*after* normalization, which is what the index stores and searches — no
property below depends on the norms.  FAISS top-`k` returns scores in
descending order; equal scores are returned in ascending id order, which
the greedy `topSel` below reproduces. -/

namespace VectorStore

structure ChunkMeta where
  chunk_id : String
  text : String
  document_name : String
  document_type : String
  page_numbers : List Nat := []
  section_title : String := ""
  metadata : List (String × String) := []
  deriving DecidableEq, Repr

def dummyMeta : ChunkMeta :=
  { chunk_id := "", text := "", document_name := "", document_type := "" }

/-- The per-chunk dict `build_index` stores in `chunks_metadata`. -/
def metaOfChunk (c : Chunker.Chunk) : ChunkMeta :=
  { chunk_id := c.chunk_id, text := c.text,
    document_name := c.document_name, document_type := c.document_type,
    page_numbers := c.page_numbers, section_title := c.section_title,
    metadata := c.metadata }

structure FAISSVectorStore where
  embedding_dim : Nat := 384
  vectors : List (List ℚ) := []
  chunks_metadata : List ChunkMeta := []

/-- `build_index`: mismatched sizes raise (`none`); otherwise the index
and metadata are replaced. -/
def buildIndex (store : FAISSVectorStore) (chunks : List Chunker.Chunk)
    (embeddings : List (List ℚ)) : Option FAISSVectorStore :=
  if chunks.length ≠ embeddings.length then none
  else some { store with vectors := embeddings,
                         chunks_metadata := chunks.map metaOfChunk }

structure SearchResult where
  chunk_id : String
  text : String
  score : ℚ
  metadata : List (String × String) := []
  document_name : String := ""
  page_numbers : List Nat := []
  section_title : String := ""

/-- The `SearchResult` built from a metadata row and a score (as in both
`search` and `search_mmr`). -/
def mkResult (meta : ChunkMeta) (s : ℚ) : SearchResult :=
  { chunk_id := meta.chunk_id, text := meta.text, score := s,
    metadata := meta.metadata, document_name := meta.document_name,
    page_numbers := meta.page_numbers, section_title := meta.section_title }

/-- Inner-product score of the query against stored vector `i`. -/
def scoreAt (store : FAISSVectorStore) (q : List ℚ) (i : Nat) : ℚ :=
  AntiHall.dotQ q (store.vectors.getD i [])

/-- First position attaining the maximum of `f` (strict improvement
only, as in both the FAISS heap and the MMR loop's `>` test). -/
def argmaxFirst (f : Nat → ℚ) : List Nat → Option Nat
  | [] => none
  | i :: rest => some (rest.foldl (fun b j => if f j > f b then j else b) i)

/-- Greedy top-`k` extraction: repeatedly pick the best remaining id
(ties to the earliest).  This is FAISS's top-`k` for `IndexFlatIP`. -/
def topSel (f : Nat → ℚ) : Nat → List Nat → List Nat
  | 0, _ => []
  | k + 1, l =>
    match argmaxFirst f l with
    | none => []
    | some b => b :: topSel f k (l.erase b)

/-- The candidate ids FAISS returns for a fetch of size `kk`. -/
def faissTop (store : FAISSVectorStore) (q : List ℚ) (kk : Nat) : List Nat :=
  topSel (scoreAt store q) kk (List.range store.vectors.length)

/-- `FAISSVectorStore.search`: top-`min(k, ntotal)`, dropping scores
below the threshold (default `0.3`). -/
def search (store : FAISSVectorStore) (q : List ℚ) (top_k : Nat)
    (threshold : ℚ) : List SearchResult :=
  if store.vectors.isEmpty then []
  else
    (faissTop store q (min top_k store.vectors.length)).filterMap fun i =>
      if scoreAt store q i < threshold then none
      else some (mkResult (store.chunks_metadata.getD i dummyMeta)
        (scoreAt store q i))

/-- The MMR objective for candidate `i` given the already selected ids:
`λ·relevance − (1−λ)·max(0, sims to selected)` (the running maximum
starts at `0.0` in the code). -/
def mmrScore (store : FAISSVectorStore) (q : List ℚ) (lam : ℚ)
    (selected : List Nat) (i : Nat) : ℚ :=
  lam * scoreAt store q i -
    (1 - lam) * (selected.foldl
      (fun m j => max m (AntiHall.dotQ (store.vectors.getD i [])
        (store.vectors.getD j []))) 0)

/-- The greedy MMR selection loop (`while len(selected) < … and
remaining`); `fuel` is the number of ids still to select. -/
def mmrLoop (store : FAISSVectorStore) (q : List ℚ) (lam : ℚ) :
    Nat → List Nat → List Nat → List Nat
  | 0, _, _ => []
  | fuel + 1, selected, remaining =>
    match argmaxFirst (mmrScore store q lam selected) remaining with
    | none => []
    | some b =>
      b :: mmrLoop store q lam fuel (selected ++ [b]) (remaining.erase b)

/-- `FAISSVectorStore.search_mmr` (defaults `fetch_k = 20`,
`λ = 0.5`; the retriever calls it with `fetch_k = 4·k`).  Candidates are
identified by their index ids (the code indexes into its candidate
array; the two are in order-preserving bijection). -/
def searchMmr (store : FAISSVectorStore) (q : List ℚ)
    (top_k fetch_k : Nat) (lam : ℚ) : List SearchResult :=
  if store.vectors.isEmpty then []
  else
    let cands := faissTop store q (min fetch_k store.vectors.length)
    if cands.isEmpty then []
    else
      let sel := mmrLoop store q lam (min top_k cands.length) [] cands
      sel.map fun i =>
        mkResult (store.chunks_metadata.getD i dummyMeta) (scoreAt store q i)

end VectorStore

namespace VectorStore

lemma foldl_argmax (f : Nat → ℚ) : ∀ (rest : List Nat) (i : Nat),
    (rest.foldl (fun b j => if f j > f b then j else b) i) ∈ i :: rest
    ∧ f i ≤ f (rest.foldl (fun b j => if f j > f b then j else b) i)
    ∧ ∀ x ∈ rest, f x ≤ f (rest.foldl (fun b j => if f j > f b then j else b) i) := by
  intro rest
  induction rest with
  | nil =>
    intro i
    exact ⟨List.mem_singleton.mpr rfl, le_refl _, by simp⟩
  | cons j t ih =>
    intro i
    simp only [List.foldl_cons]
    by_cases hc : f j > f i
    · simp only [if_pos hc]
      obtain ⟨hmem, hle, hall⟩ := ih j
      refine ⟨?_, le_trans (le_of_lt hc) hle, ?_⟩
      · rcases List.mem_cons.mp hmem with h | h
        · rw [h]
          exact List.mem_cons_of_mem _ (List.mem_cons_self _ _)
        · exact List.mem_cons_of_mem _ (List.mem_cons_of_mem _ h)
      · intro x hx
        rcases List.mem_cons.mp hx with rfl | hx
        · exact hle
        · exact hall x hx
    · simp only [if_neg hc]
      obtain ⟨hmem, hle, hall⟩ := ih i
      refine ⟨?_, hle, ?_⟩
      · rcases List.mem_cons.mp hmem with h | h
        · rw [h]
          exact List.mem_cons_self _ _
        · exact List.mem_cons_of_mem _ (List.mem_cons_of_mem _ h)
      · intro x hx
        rcases List.mem_cons.mp hx with rfl | hx
        · exact le_trans (le_of_not_lt hc) hle
        · exact hall x hx

lemma argmaxFirst_spec (f : Nat → ℚ) {l : List Nat} {b : Nat}
    (h : argmaxFirst f l = some b) : b ∈ l ∧ ∀ x ∈ l, f x ≤ f b := by
  cases l with
  | nil => simp [argmaxFirst] at h
  | cons i rest =>
    simp only [argmaxFirst, Option.some.injEq] at h
    obtain ⟨hmem, hle, hall⟩ := foldl_argmax f rest i
    rw [h] at hmem hle hall
    refine ⟨hmem, ?_⟩
    intro x hx
    rcases List.mem_cons.mp hx with rfl | hx
    · exact hle
    · exact hall x hx

lemma argmaxFirst_sorted (f : Nat → ℚ) (i : Nat) (rest : List Nat)
    (h : ∀ x ∈ rest, f x ≤ f i) : argmaxFirst f (i :: rest) = some i := by
  simp only [argmaxFirst, Option.some.injEq]
  have key : ∀ t : List Nat, (∀ x ∈ t, f x ≤ f i) →
      t.foldl (fun b j => if f j > f b then j else b) i = i := by
    intro t
    induction t with
    | nil => intro _; rfl
    | cons j t2 ih =>
      intro h2
      simp only [List.foldl_cons,
        if_neg (not_lt.mpr (h2 j (List.mem_cons_self _ _)))]
      exact ih (fun x hx => h2 x (List.mem_cons_of_mem _ hx))
  exact key rest h

lemma topSel_cons_of_argmax (f : Nat → ℚ) (k : Nat) (l : List Nat) (b : Nat)
    (h : argmaxFirst f l = some b) :
    topSel f (k + 1) l = b :: topSel f k (l.erase b) := by
  simp [topSel, h]

lemma topSel_nil_of_argmax (f : Nat → ℚ) (k : Nat) (l : List Nat)
    (h : argmaxFirst f l = none) : topSel f (k + 1) l = [] := by
  simp [topSel, h]

lemma topSel_length (f : Nat → ℚ) : ∀ k l, (topSel f k l).length = min k l.length := by
  intro k
  induction k with
  | zero => intro l; simp [topSel]
  | succ k ih =>
    intro l
    cases l with
    | nil => simp [topSel, argmaxFirst]
    | cons i rest =>
      obtain ⟨b, hb⟩ : ∃ b, argmaxFirst f (i :: rest) = some b := ⟨_, rfl⟩
      rw [topSel_cons_of_argmax f k _ b hb]
      have hbmem := (argmaxFirst_spec f hb).1
      simp only [List.length_cons]
      rw [ih ((i :: rest).erase b), List.length_erase_of_mem hbmem]
      simp only [List.length_cons, Nat.add_sub_cancel]
      rw [Nat.succ_min_succ]

lemma topSel_subset (f : Nat → ℚ) : ∀ k l, ∀ x ∈ topSel f k l, x ∈ l := by
  intro k
  induction k with
  | zero => intro l x hx; simp [topSel] at hx
  | succ k ih =>
    intro l x hx
    cases hb : argmaxFirst f l with
    | none => rw [topSel_nil_of_argmax f k l hb] at hx; simp at hx
    | some b =>
      rw [topSel_cons_of_argmax f k l b hb] at hx
      rcases List.mem_cons.mp hx with rfl | hx
      · exact (argmaxFirst_spec f hb).1
      · exact List.mem_of_mem_erase (ih (l.erase b) x hx)

lemma topSel_nodup (f : Nat → ℚ) : ∀ k l, l.Nodup → (topSel f k l).Nodup := by
  intro k
  induction k with
  | zero => intro l _; simp [topSel]
  | succ k ih =>
    intro l hnd
    cases hb : argmaxFirst f l with
    | none => rw [topSel_nil_of_argmax f k l hb]; exact List.nodup_nil
    | some b =>
      rw [topSel_cons_of_argmax f k l b hb]
      refine List.nodup_cons.mpr ⟨?_, ih (l.erase b) (hnd.erase b)⟩
      intro hmem
      have hb2 : b ∈ l.erase b := topSel_subset f k (l.erase b) b hmem
      exact ((List.Nodup.mem_erase_iff hnd).mp hb2).1 rfl

lemma topSel_pairwise (f : Nat → ℚ) : ∀ k l,
    (topSel f k l).Pairwise (fun a b => f b ≤ f a) := by
  intro k
  induction k with
  | zero => intro l; simp [topSel]
  | succ k ih =>
    intro l
    cases hb : argmaxFirst f l with
    | none => rw [topSel_nil_of_argmax f k l hb]; exact List.Pairwise.nil
    | some b =>
      rw [topSel_cons_of_argmax f k l b hb]
      refine List.pairwise_cons.mpr ⟨?_, ih _⟩
      intro x hx
      exact (argmaxFirst_spec f hb).2 x
        (List.mem_of_mem_erase (topSel_subset f k (l.erase b) x hx))

lemma topSel_take (f : Nat → ℚ) : ∀ k k' l, k ≤ k' →
    topSel f k l = (topSel f k' l).take k := by
  intro k
  induction k with
  | zero => intro k' l _; simp [topSel]
  | succ k ih =>
    intro k' l hk
    match k', hk with
    | k'' + 1, hk =>
      cases hb : argmaxFirst f l with
      | none =>
        rw [topSel_nil_of_argmax f k l hb, topSel_nil_of_argmax f k'' l hb]
        rfl
      | some b =>
        rw [topSel_cons_of_argmax f k l b hb,
          topSel_cons_of_argmax f k'' l b hb, List.take_succ_cons]
        rw [ih k'' (l.erase b) (Nat.succ_le_succ_iff.mp hk)]

lemma mmrScore_one (store : FAISSVectorStore) (q : List ℚ)
    (selected : List Nat) (i : Nat) :
    mmrScore store q 1 selected i = scoreAt store q i := by
  unfold mmrScore
  ring

lemma argmaxFirst_congr (f g : Nat → ℚ) (h : ∀ x, f x = g x) (l : List Nat) :
    argmaxFirst f l = argmaxFirst g l := by
  rw [funext h]

lemma mmrLoop_nodup_subset (store : FAISSVectorStore) (q : List ℚ) (lam : ℚ) :
    ∀ fuel selected remaining, remaining.Nodup →
      (mmrLoop store q lam fuel selected remaining).Nodup
      ∧ ∀ x ∈ mmrLoop store q lam fuel selected remaining, x ∈ remaining := by
  intro fuel
  induction fuel with
  | zero => intro selected remaining _; simp [mmrLoop]
  | succ fuel ih =>
    intro selected remaining hnd
    cases hb : argmaxFirst (mmrScore store q lam selected) remaining with
    | none => simp [mmrLoop, hb]
    | some b =>
      obtain ⟨ihn, ihs⟩ := ih (selected ++ [b]) (remaining.erase b) (hnd.erase b)
      simp only [mmrLoop, hb]
      constructor
      · refine List.nodup_cons.mpr ⟨?_, ihn⟩
        intro hmem
        have hb2 : b ∈ remaining.erase b := ihs b hmem
        exact ((List.Nodup.mem_erase_iff hnd).mp hb2).1 rfl
      · intro x hx
        rcases List.mem_cons.mp hx with rfl | hx
        · exact (argmaxFirst_spec _ hb).1
        · exact List.mem_of_mem_erase (ihs x hx)

lemma mmrLoop_one_take (store : FAISSVectorStore) (q : List ℚ) :
    ∀ fuel selected cands,
      cands.Pairwise (fun a b => scoreAt store q b ≤ scoreAt store q a) →
      mmrLoop store q 1 fuel selected cands = cands.take fuel := by
  intro fuel
  induction fuel with
  | zero => intro selected cands _; simp [mmrLoop]
  | succ fuel ih =>
    intro selected cands hp
    cases cands with
    | nil => simp [mmrLoop, argmaxFirst]
    | cons c rest =>
      have hcong := argmaxFirst_congr (mmrScore store q 1 selected)
        (scoreAt store q) (mmrScore_one store q selected) (c :: rest)
      have hsort : argmaxFirst (scoreAt store q) (c :: rest) = some c :=
        argmaxFirst_sorted _ c rest (List.pairwise_cons.mp hp).1
      simp only [mmrLoop, hcong, hsort, List.erase_cons_head]
      rw [ih (selected ++ [c]) rest (List.pairwise_cons.mp hp).2]
      rfl

lemma filterMap_threshold (store : FAISSVectorStore) (q : List ℚ) (th : ℚ) :
    ∀ l : List Nat,
      (l.filterMap fun i =>
        if scoreAt store q i < th then none
        else some (mkResult (store.chunks_metadata.getD i dummyMeta)
          (scoreAt store q i)))
      = ((l.map fun i => mkResult (store.chunks_metadata.getD i dummyMeta)
            (scoreAt store q i)).filter
          fun r => !decide (r.score < th)) := by
  intro l
  induction l with
  | nil => rfl
  | cons i t ih =>
    simp only [List.filterMap_cons, List.map_cons, List.filter_cons]
    by_cases hc : scoreAt store q i < th
    · simp only [if_pos hc]
      have hsc : (mkResult (store.chunks_metadata.getD i dummyMeta)
          (scoreAt store q i)).score = scoreAt store q i := rfl
      simp only [hsc, hc, decide_True, Bool.not_true, Bool.false_eq_true,
        if_false]
      exact ih
    · simp only [if_neg hc]
      have hsc : (mkResult (store.chunks_metadata.getD i dummyMeta)
          (scoreAt store q i)).score = scoreAt store q i := rfl
      simp only [hsc, hc, decide_False, Bool.not_false, if_true]
      rw [ih]

end VectorStore

/-- C8 (amended): over an index whose chunk ids are unique (the data
model's invariant) and whose metadata is aligned with the vectors,
`search_mmr` returns pairwise-distinct results for every `λ` and every
`k`; and with `λ = 1` the plain `search` output is exactly the MMR
output restricted to scores `≥ threshold` — MMR applies no score
threshold, so the two agree verbatim only when every returned score
clears it. -/
theorem C8_mmr_distinct_and_lambda_one (store : VectorStore.FAISSVectorStore)
    (q : List ℚ) (k fetch : Nat) (lam threshold : ℚ)
    (hids : (store.chunks_metadata.map (fun m => m.chunk_id)).Nodup)
    (hlen : store.vectors.length = store.chunks_metadata.length)
    (hkf : k ≤ fetch) :
    (VectorStore.searchMmr store q k fetch lam).Nodup
    ∧ VectorStore.search store q k threshold
      = (VectorStore.searchMmr store q k fetch 1).filter
          (fun r => !decide (r.score < threshold)) := by
  constructor
  · unfold VectorStore.searchMmr
    by_cases hemp : store.vectors.isEmpty
    · simp [hemp]
    · simp only [hemp, Bool.false_eq_true, if_false]
      by_cases hce : (VectorStore.faissTop store q
          (min fetch store.vectors.length)).isEmpty
      · simp [hce]
      · simp only [hce, Bool.false_eq_true, if_false]
        set cands := VectorStore.faissTop store q
          (min fetch store.vectors.length) with hcands
        have hcnd : cands.Nodup :=
          VectorStore.topSel_nodup _ _ _ (List.nodup_range _)
        obtain ⟨hseln, hsels⟩ := VectorStore.mmrLoop_nodup_subset store q lam
          (min k cands.length) [] cands hcnd
        refine List.Nodup.map_on ?_ hseln
        intro x hx y hy hfeq
        have hxr : x ∈ List.range store.vectors.length :=
          VectorStore.topSel_subset _ _ _ x (hsels x hx)
        have hyr : y ∈ List.range store.vectors.length :=
          VectorStore.topSel_subset _ _ _ y (hsels y hy)
        rw [List.mem_range] at hxr hyr
        have hxl : x < store.chunks_metadata.length := hlen ▸ hxr
        have hyl : y < store.chunks_metadata.length := hlen ▸ hyr
        have hid : (store.chunks_metadata.getD x VectorStore.dummyMeta).chunk_id
            = (store.chunks_metadata.getD y VectorStore.dummyMeta).chunk_id :=
          congrArg VectorStore.SearchResult.chunk_id hfeq
        rw [List.getD_eq_getElem _ _ hxl, List.getD_eq_getElem _ _ hyl] at hid
        have hx2 : x < (store.chunks_metadata.map (fun m => m.chunk_id)).length := by
          simpa using hxl
        have hy2 : y < (store.chunks_metadata.map (fun m => m.chunk_id)).length := by
          simpa using hyl
        have hmap : (store.chunks_metadata.map (fun m => m.chunk_id))[x]
            = (store.chunks_metadata.map (fun m => m.chunk_id))[y] := by
          simpa using hid
        exact hids.getElem_inj_iff.mp hmap
  · unfold VectorStore.search VectorStore.searchMmr
    by_cases hemp : store.vectors.isEmpty
    · simp [hemp]
    · simp only [hemp, Bool.false_eq_true, if_false]
      have hn : store.vectors.length ≠ 0 := by
        intro h0
        rw [List.isEmpty_iff, ← List.length_eq_zero] at hemp
        exact hemp h0
      have hclen : (VectorStore.faissTop store q
          (min fetch store.vectors.length)).length
          = min fetch store.vectors.length := by
        unfold VectorStore.faissTop
        rw [VectorStore.topSel_length, List.length_range]
        omega
      by_cases hce : (VectorStore.faissTop store q
          (min fetch store.vectors.length)).isEmpty
      · have h0 : min fetch store.vectors.length = 0 := by
          rw [← hclen]
          rwa [List.isEmpty_iff, ← List.length_eq_zero] at hce
        have hf0 : fetch = 0 := by omega
        have hk0 : k = 0 := by omega
        subst hk0
        simp only [hce, if_true, Nat.zero_min]
        show (VectorStore.faissTop store q 0).filterMap _ = _
        simp [VectorStore.faissTop, VectorStore.topSel]
      · simp only [hce, Bool.false_eq_true, if_false]
        rw [VectorStore.filterMap_threshold]
        have hpair : (VectorStore.faissTop store q
            (min fetch store.vectors.length)).Pairwise
            (fun a b => VectorStore.scoreAt store q b
              ≤ VectorStore.scoreAt store q a) :=
          VectorStore.topSel_pairwise
            (VectorStore.scoreAt store q) (min fetch store.vectors.length)
            (List.range store.vectors.length)
        rw [VectorStore.mmrLoop_one_take store q _ [] _ hpair]
        have h1 : min k (VectorStore.faissTop store q
            (min fetch store.vectors.length)).length
            = min k store.vectors.length := by
          rw [hclen]
          omega
        rw [h1]
        have h2 : VectorStore.faissTop store q (min k store.vectors.length)
            = (VectorStore.faissTop store q
                (min fetch store.vectors.length)).take
              (min k store.vectors.length) := by
          unfold VectorStore.faissTop
          exact VectorStore.topSel_take _ _ _ _ (by omega)
        rw [h2]

/-- The two-chunk example index for C8. -/
def VectorStore.exampleStore : VectorStore.FAISSVectorStore :=
  { embedding_dim := 2, vectors := [[1, 0], [0, 1]],
    chunks_metadata :=
      [{ chunk_id := "c0", text := "t0", document_name := "d0",
         document_type := "other" },
       { chunk_id := "c1", text := "t1", document_name := "d1",
         document_type := "other" }] }

/-- C8 counterexample: on an index with stored vectors `(1,0)` and
`(0,1)` and query `(1,0)`, plain `search` with `k = 2` drops the
zero-score chunk (threshold `0.3`) and returns one result, while
`search_mmr` with `λ = 1`, `k = 2`, `fetch = 4k` returns two — so MMR at
`λ = 1` does not reproduce the plain top-`k` output. -/
theorem C8_counterexample :
    VectorStore.buildIndex { embedding_dim := 2 }
      [{ chunk_id := "c0", text := "t0", document_name := "d0",
         document_type := "other" },
       { chunk_id := "c1", text := "t1", document_name := "d1",
         document_type := "other" }]
      [[1, 0], [0, 1]] = some VectorStore.exampleStore
    ∧ (VectorStore.search VectorStore.exampleStore [1, 0] 2 (3/10)).length = 1
    ∧ (VectorStore.searchMmr VectorStore.exampleStore [1, 0] 2 8 1).length = 2
    ∧ VectorStore.searchMmr VectorStore.exampleStore [1, 0] 2 8 1
      ≠ VectorStore.search VectorStore.exampleStore [1, 0] 2 (3/10) := by
  have hs0 : VectorStore.scoreAt VectorStore.exampleStore [1, 0] 0 = 1 := by
    show AntiHall.dotQ [1, 0] [1, 0] = 1
    simp [AntiHall.dotQ]
  have hs1 : VectorStore.scoreAt VectorStore.exampleStore [1, 0] 1 = 0 := by
    show AntiHall.dotQ [1, 0] [0, 1] = 0
    simp [AntiHall.dotQ]
  have hargmax2 : VectorStore.argmaxFirst
      (VectorStore.scoreAt VectorStore.exampleStore [1, 0]) [0, 1]
      = some 0 := by
    simp only [VectorStore.argmaxFirst, List.foldl_cons, List.foldl_nil,
      hs0, hs1, Option.some.injEq]
    norm_num
  have hargmax1 : VectorStore.argmaxFirst
      (VectorStore.scoreAt VectorStore.exampleStore [1, 0]) [1] = some 1 := by
    simp [VectorStore.argmaxFirst]
  have htop : ∀ kk, VectorStore.faissTop VectorStore.exampleStore [1, 0] (kk + 2)
      = [0, 1] := by
    intro kk
    show VectorStore.topSel _ (kk + 2) (List.range 2) = [0, 1]
    rw [show List.range 2 = [0, 1] from rfl]
    rw [VectorStore.topSel_cons_of_argmax _ _ _ _ hargmax2]
    rw [show ([0, 1] : List Nat).erase 0 = [1] from rfl]
    rw [VectorStore.topSel_cons_of_argmax _ _ _ _ hargmax1]
    rw [show ([1] : List Nat).erase 1 = [] from rfl]
    cases kk <;> simp [VectorStore.topSel, VectorStore.argmaxFirst]
  have hsearch : VectorStore.search VectorStore.exampleStore [1, 0] 2 (3/10)
      = [VectorStore.mkResult
          { chunk_id := "c0", text := "t0", document_name := "d0",
            document_type := "other" } 1] := by
    unfold VectorStore.search
    rw [if_neg (by simp [VectorStore.exampleStore])]
    rw [show min 2 VectorStore.exampleStore.vectors.length = 0 + 2 from rfl]
    rw [htop 0]
    simp only [List.filterMap_cons, List.filterMap_nil, hs0, hs1]
    norm_num
    rfl
  have hmmr : VectorStore.searchMmr VectorStore.exampleStore [1, 0] 2 8 1
      = [VectorStore.mkResult
          { chunk_id := "c0", text := "t0", document_name := "d0",
            document_type := "other" } 1,
         VectorStore.mkResult
          { chunk_id := "c1", text := "t1", document_name := "d1",
            document_type := "other" } 0] := by
    unfold VectorStore.searchMmr
    rw [if_neg (by simp [VectorStore.exampleStore])]
    rw [show min 8 VectorStore.exampleStore.vectors.length = 0 + 2 from rfl]
    rw [htop 0]
    rw [if_neg (by simp)]
    have hpair : ([0, 1] : List Nat).Pairwise
        (fun a b => VectorStore.scoreAt VectorStore.exampleStore [1, 0] b
          ≤ VectorStore.scoreAt VectorStore.exampleStore [1, 0] a) := by
      refine List.pairwise_cons.mpr ⟨?_, List.pairwise_singleton _ _⟩
      intro x hx
      rw [List.mem_singleton] at hx
      subst hx
      rw [hs0, hs1]
      norm_num
    rw [VectorStore.mmrLoop_one_take VectorStore.exampleStore [1, 0] _ [] _ hpair]
    rw [show min 2 ([0, 1] : List Nat).length = 2 from rfl]
    simp only [List.take, List.map_cons, List.map_nil, hs0, hs1]
    rfl
  refine ⟨rfl, ?_, ?_, ?_⟩
  · rw [hsearch]
    rfl
  · rw [hmmr]
    rfl
  · rw [hsearch, hmmr]
    intro hcontra
    have := congrArg List.length hcontra
    simp at this

/-- Witness for `C8_mmr_distinct_and_lambda_one` at the example index,
`k = 1`, `fetch = 4`, `λ = 1/2`. -/
theorem C8_mmr_distinct_and_lambda_one_witness :
    (VectorStore.searchMmr VectorStore.exampleStore [1, 0] 1 4 (1/2)).Nodup
    ∧ VectorStore.search VectorStore.exampleStore [1, 0] 1 (3/10)
      = (VectorStore.searchMmr VectorStore.exampleStore [1, 0] 1 4 1).filter
          (fun r => !decide (r.score < 3/10)) :=
  C8_mmr_distinct_and_lambda_one VectorStore.exampleStore [1, 0] 1 4 (1/2)
    (3/10) (by decide) (by decide) (by decide)

/-! ## Hybrid retrieval and answer synthesis (`hybrid_retriever.py`,
`answer_synthesizer.py`, `citation_manager.py`)

`HybridRetriever.retrieve` in HYBRID mode with the two collaborating
retrievers abstracted as `Except`-valued computations (a raised
exception is `Except.error`; the code catches it, logs, and keeps the
other side's results).  `AnswerSynthesizer.synthesize` is modelled for
`chat_history=None` and an engine with `llm_provider=None` (the
default-constructed engine), with the embedding model optional and the
LLM an opaque `String → String` (`generate` is always called with
`SYSTEM_PROMPT_ES`, which is part of the collaborator configuration).

`f"{x:.2f}"` / `f"{x:.0%}"` are modelled by exact round-half-even on the
rational value (Python rounds the decimal expansion of the double; the
two agree away from representation boundaries). -/

namespace Synth

open PyStr

def ratFloor (q : ℚ) : Int := q.num.fdiv q.den

/-- Round half to even, as Python's `format` does. -/
def roundHalfEven (q : ℚ) : Int :=
  let f := ratFloor q
  if q - f < 1/2 then f
  else if 1/2 < q - f then f + 1
  else if f % 2 = 0 then f else f + 1

/-- `f"{q:.2f}"`. -/
def formatQ2 (q : ℚ) : String :=
  let n := (roundHalfEven (|q| * 100)).toNat
  (if q < 0 then "-" else "") ++ toString (n / 100) ++ "." ++
    (if n % 100 < 10 then "0" ++ toString (n % 100) else toString (n % 100))

/-- `f"{q:.0%}"`. -/
def formatPercent0 (q : ℚ) : String :=
  (if q < 0 then "-" else "") ++
    toString ((roundHalfEven (|q| * 100)).toNat) ++ "%"

/-- One entity dict of a `GraphSearchResult`, restricted to the keys the
synthesizer reads (`name`, `properties.source_document`); an absent
key is `none`/`""`. -/
structure GraphEntity where
  name : String := ""
  source_document : Option String := none

structure GraphSearchResult where
  entities : List GraphEntity := []
  subgraph_text : String := ""
  path_description : Option String := none
  confidence : ℚ := 0

inductive RetrievalMode where
  | rag_only | graph_only | hybrid
  deriving DecidableEq, Repr

def RetrievalMode.value : RetrievalMode → String
  | .rag_only => "rag_only"
  | .graph_only => "graph_only"
  | .hybrid => "hybrid"

structure HybridResult where
  rag_results : List VectorStore.SearchResult := []
  graph_results : List GraphSearchResult := []
  merged_context : String := ""
  retrieval_mode : RetrievalMode := .hybrid
  rag_confidence : ℚ := 0
  graph_confidence : ℚ := 0

/-- `HybridRetriever._merge_contexts` (the weight arguments are accepted
and ignored, as in the code). -/
def mergeContexts (ragResults : List VectorStore.SearchResult)
    (graphResults : List GraphSearchResult) (_rw _gw : ℚ) : String :=
  let parts :=
    (if ragResults.isEmpty then []
     else
      let ragTexts := ragResults.enum.map fun p =>
        ("[RAG-" ++ toString (p.1 + 1) ++ ": " ++ p.2.document_name ++
          (if p.2.section_title ≠ "" then ", " ++ p.2.section_title else "") ++
          " (score: " ++ formatQ2 p.2.score ++ ")]") ++ "\n" ++ p.2.text
      if ragTexts.isEmpty then []
      else ["=== Información de documentos (RAG) ===\n" ++
        String.intercalate "\n\n" ragTexts]) ++
    (if graphResults.isEmpty then []
     else
      let graphTexts := graphResults.enum.flatMap fun p =>
        (if p.2.subgraph_text ≠ "" then
          ["[Graph-" ++ toString (p.1 + 1) ++ " (confianza: " ++
            formatQ2 p.2.confidence ++ ")]\n" ++ p.2.subgraph_text]
         else []) ++
        (match p.2.path_description with
         | some pd => if pd ≠ "" then ["Camino: " ++ pd] else []
         | none => [])
      if graphTexts.isEmpty then []
      else ["=== Información del grafo de conocimiento ===\n" ++
        String.intercalate "\n\n" graphTexts])
  String.intercalate "\n\n" parts

/-- `HybridRetriever.retrieve` in HYBRID mode: each retriever call is
wrapped in `try/except` — on error the exception is only logged and the
result list stays empty; the confidence is set only when the result
list is non-empty. -/
def retrieve (ragRetriever : Except String (List VectorStore.SearchResult))
    (graphRetriever : Except String (List GraphSearchResult))
    (ragWeight graphWeight : ℚ) (query : String) : HybridResult :=
  let w := HybridW.adjustWeights ragWeight graphWeight query
  let ragResults := match ragRetriever with
    | .ok rs => rs
    | .error _ => []
  let ragConf : ℚ := if ragResults.isEmpty then 0
    else (ragResults.map (fun r => r.score)).sum / (ragResults.length : ℚ)
  let graphResults := match graphRetriever with
    | .ok rs => rs
    | .error _ => []
  let graphConf : ℚ := if graphResults.isEmpty then 0
    else (graphResults.map (fun r => r.confidence)).sum /
      (graphResults.length : ℚ)
  { rag_results := ragResults, graph_results := graphResults,
    merged_context := mergeContexts ragResults graphResults w.1 w.2,
    retrieval_mode := .hybrid,
    rag_confidence := ragConf, graph_confidence := graphConf }

/-! ### Citations. -/

structure Citation where
  document_name : String
  page_number : Nat := 0
  section_title : String := ""
  text_snippet : String := ""
  citation_id : String := ""

/-- One source dict of `synthesize` (graph sources carry no
`page_numbers` key, hence the `Option`). -/
structure SourceDict where
  document_name : String
  page_numbers : Option (List Nat) := none
  section_title : String := ""
  text_snippet : String := ""
  score : ℚ := 0
  source_type : String := ""

/-- `CitationManager.create_citations`. -/
def createCitations (sources : List SourceDict) : List Citation :=
  sources.enum.map fun p =>
    let pages := p.2.page_numbers.getD []
    { document_name := p.2.document_name,
      page_number := pages.headD 0,
      section_title := p.2.section_title,
      text_snippet := p.2.text_snippet.take 100,
      citation_id := "[" ++ toString (p.1 + 1) ++ "]" }

/-- `CitationManager.format_citation_footer`. -/
def formatCitationFooter (citations : List Citation) : String :=
  if citations.isEmpty then ""
  else
    String.intercalate "\n" ("\n📚 **Fuentes:**" ::
      citations.map fun c =>
        c.citation_id ++ " " ++ c.document_name ++
        (if c.section_title ≠ "" then ", " ++ c.section_title else "") ++
        (if 0 < c.page_number then " (pág. " ++ toString c.page_number ++ ")"
         else ""))

/-- `CitationManager.format_answer_with_citations`. -/
def formatAnswerWithCitations (answer : String) (citations : List Citation) :
    String :=
  let footer := formatCitationFooter citations
  if footer ≠ "" then answer ++ "\n" ++ footer else answer

/-! ### Prompts (`prompts.py`) and the synthesizer. -/

def ANSWER_SYNTHESIS_PROMPT_ES (ragContext graphContext question : String) :
    String :=
  "Sos un asistente administrativo del LSE-FIUBA. Generá una respuesta " ++
  "basándote en la información recuperada de ambas fuentes.\n\n" ++
  "Información del sistema RAG (búsqueda por similitud):\n" ++ ragContext ++
  "\n\nInformación del grafo de conocimiento:\n" ++ graphContext ++
  "\n\nPregunta: " ++ question ++
  "\n\nInstrucciones:\n- Combiná la información de ambas fuentes para dar " ++
  "la respuesta más completa posible.\n- Si hay contradicciones entre las " ++
  "fuentes, mencionalo.\n- Citá las fuentes usando [Fuente: documento, " ++
  "sección].\n- Si ninguna fuente tiene la información, indicalo " ++
  "claramente.\n\nRespuesta:"

def RAG_QA_PROMPT_ES (context question : String) : String :=
  "Contexto recuperado de documentos oficiales del LSE-FIUBA:\n\n" ++
  context ++ "\n\n---\nPregunta del estudiante: " ++ question ++
  "\n\nInstrucciones:\n- Respondé basándote EXCLUSIVAMENTE en el contexto " ++
  "proporcionado.\n- Citá el documento y la sección de donde obtenés la " ++
  "información usando el formato [Fuente: nombre_documento, sección].\n" ++
  "- Si el contexto no contiene la respuesta, indicalo claramente y " ++
  "sugerí un email de contacto relevante.\n- Formato: respuesta clara y " ++
  "concisa, seguida de las fuentes.\n\nRespuesta:"

structure FinalAnswer where
  answer : String := ""
  sources : List SourceDict := []
  confidence : ℚ := 0
  method : String := "hybrid"
  rag_contribution : String := ""
  graph_contribution : String := ""
  warnings : List String := []
  fallback_contacts : List String := []
  citations : List Citation := []
  formatted_answer : String := ""

/-- The engine thresholds `AnswerSynthesizer` consults. -/
structure EngineCfg where
  confidence_threshold : ℚ := 1/2
  abstention_threshold : ℚ := 3/10

def unsupportedWarning : String :=
  "Algunas afirmaciones podrían no estar completamente respaldadas por los documentos oficiales."

def lowConfWarning (confidence : ℚ) (contact : String) : String :=
  "Confianza baja (" ++ formatPercent0 confidence ++ "). Verificar con " ++
    contact ++ "."

/-- `AnswerSynthesizer.synthesize` (`chat_history=None`). -/
def synthesize (cfg : EngineCfg) (emb : Option (String → List ℚ))
    (llm : String → String) (query : String) (hr : HybridResult) :
    FinalAnswer :=
  let method := hr.retrieval_mode.value
  let maxConfidence := max hr.rag_confidence (max hr.graph_confidence (1/100))
  let sa := AntiHall.shouldAbstain cfg.abstention_threshold maxConfidence query
  if sa.1 = true ∧ hr.merged_context = "" then
    let contact := AntiHall.getFallbackContact query
    let ans := sa.2 ++ " Te recomiendo contactar a " ++ contact ++
      " para obtener información precisa."
    { method := method, answer := ans, confidence := 0,
      fallback_contacts := [contact], formatted_answer := ans }
  else
    let prompt :=
      if hr.retrieval_mode = .hybrid then
        let ragContext := if hr.rag_results.isEmpty then
            "Sin información RAG disponible."
          else String.intercalate "\n" (hr.rag_results.map (fun r => r.text))
        let graphContext := if hr.graph_results.isEmpty then
            "Sin información del grafo disponible."
          else String.intercalate "\n"
            ((hr.graph_results.filter (fun r => r.subgraph_text ≠ "")).map
              (fun r => r.subgraph_text))
        ANSWER_SYNTHESIS_PROMPT_ES (ragContext.take 2000)
          (graphContext.take 2000) query
      else
        RAG_QA_PROMPT_ES (hr.merged_context.take 4000) query
    let answer := llm prompt
    let sources :=
      hr.rag_results.map (fun r =>
        ({ document_name := r.document_name,
           page_numbers := some r.page_numbers,
           section_title := r.section_title,
           text_snippet := r.text.take 150,
           score := r.score, source_type := "rag" } : SourceDict)) ++
      hr.graph_results.flatMap (fun r =>
        (r.entities.take 3).map (fun ent =>
          ({ document_name := ent.source_document.getD "Grafo de conocimiento",
             section_title := ent.name,
             text_snippet := if r.subgraph_text ≠ "" then
                 r.subgraph_text.take 150
               else "",
             score := r.confidence, source_type := "graph" } : SourceDict)))
    let faith := AntiHall.checkFaithfulness emb answer hr.merged_context
    let ragCtx := String.intercalate " " (hr.rag_results.map (fun r => r.text))
    let graphCtx := String.intercalate " "
      ((hr.graph_results.filter (fun r => r.subgraph_text ≠ "")).map
        (fun r => r.subgraph_text))
    let crossRef := AntiHall.crossReferenceCheck emb ragCtx graphCtx answer
    let confidence := AntiHall.computeConfidence
      (hr.rag_results.map (fun r => r.score)) faith.score sources.length
      crossRef
    let citations := createCitations sources
    { answer := answer, sources := sources, confidence := confidence,
      method := method,
      rag_contribution := toString hr.rag_results.length ++
        " chunks recuperados",
      graph_contribution := toString hr.graph_results.length ++
        " subgrafos encontrados",
      warnings :=
        (if faith.unsupported_claims ≠ [] then [unsupportedWarning] else []) ++
        (if confidence < cfg.confidence_threshold then
          [lowConfWarning confidence (AntiHall.getFallbackContact query)]
         else []),
      fallback_contacts :=
        if confidence < cfg.confidence_threshold then
          [AntiHall.getFallbackContact query]
        else [],
      citations := citations,
      formatted_answer := formatAnswerWithCitations answer citations }

/-- The sample RAG result of the C9 run. -/
def exampleRes : VectorStore.SearchResult :=
  { chunk_id := "c", text := "tema de prueba", score := 1,
    document_name := "d" }

end Synth

namespace Synth

lemma checkFaithfulness_none_unsupported (a c : String) :
    (AntiHall.checkFaithfulness none a c).unsupported_claims = [] := by
  unfold AntiHall.checkFaithfulness
  split
  · rfl
  · rfl

lemma computeConfidence_nil (f : ℚ) (s : Nat) (c : ℚ) :
    AntiHall.computeConfidence [] f s c = 0 := rfl

lemma mem_ite_singleton {α : Type} {w a : α} {c : Prop} [Decidable c]
    (h : w ∈ if c then [a] else []) : w = a := by
  split at h
  · exact List.mem_singleton.mp h
  · simp at h

lemma ratFloor_hundred : ratFloor 100 = 100 := by decide

lemma roundHalfEven_hundred : roundHalfEven 100 = 100 := by
  simp only [roundHalfEven]
  rw [ratFloor_hundred]
  norm_num

lemma formatQ2_one : formatQ2 1 = "1.00" := by
  simp only [formatQ2]
  rw [show |(1:ℚ)| * 100 = 100 from by norm_num, roundHalfEven_hundred]
  decide

/-- Merging the one sample RAG result with an empty graph side yields the
single RAG block, whatever the weights. -/
lemma mergeContexts_example (a b : ℚ) :
    mergeContexts [exampleRes] [] a b
      = "=== Información de documentos (RAG) ===\n[RAG-1: d (score: 1.00)]\ntema de prueba" := by
  rw [show mergeContexts [exampleRes] [] a b
      = "=== Información de documentos (RAG) ===\n[RAG-1: d (score: "
        ++ formatQ2 1 ++ ")]" ++ "\n" ++ "tema de prueba" from rfl, formatQ2_one]
  rfl

/-- The sample answer contains no data token, so the heuristic back-end
scores it `0.7` against the merged context. -/
lemma faithScore_example :
    (AntiHall.checkFaithfulness none "Respuesta breve sobre el tema."
      "=== Información de documentos (RAG) ===\n[RAG-1: d (score: 1.00)]\ntema de prueba").score
      = 7/10 := by
  unfold AntiHall.checkFaithfulness
  rw [if_neg (fun h => by rcases h with h | h <;> exact absurd h (by decide))]
  show (AntiHall.checkFaithfulnessHeuristic _ _).score = 7/10
  simp only [AntiHall.checkFaithfulnessHeuristic]
  rw [show AntiHall.heuristicCounts "Respuesta breve sobre el tema."
      "=== Información de documentos (RAG) ===\n[RAG-1: d (score: 1.00)]\ntema de prueba"
      = (0, 0) from by decide]
  rfl

/-- With an empty graph context, `cross_reference_check` returns the
neutral `0.5`. -/
lemma crossRef_example :
    AntiHall.crossReferenceCheck none "tema de prueba" ""
      "Respuesta breve sobre el tema." = 1/2 := by
  unfold AntiHall.crossReferenceCheck
  rw [if_pos (Or.inr rfl)]

/-- `compute_confidence` on the sample run: `0.3·1 + 0.3·0.7 + 0.15·(1/3)
+ 0.25·0.5 = 0.685`. -/
lemma confidence_example :
    AntiHall.computeConfidence [1] (7/10) 1 (1/2) = 137/200 := by
  unfold AntiHall.computeConfidence
  norm_num [min_def, max_def]

end Synth

/-- C9 counterexample: a hybrid run in which the graph retriever raises
(`Except.error "boom"`) while the RAG retriever returns one result.
Containment holds — the RAG results are kept, the graph side is empty —
but the synthesized answer carries no warning at all (the confidence of
the run is `0.685 ≥ 0.5` and there are no unsupported claims), so the
retrieval failure is never attached as a warning, refuting the claim as
stated. -/
theorem C9_counterexample :
    (Synth.retrieve (Except.ok [Synth.exampleRes]) (Except.error "boom")
        (6/10) (4/10) "hola").rag_results = [Synth.exampleRes]
    ∧ (Synth.retrieve (Except.ok [Synth.exampleRes]) (Except.error "boom")
        (6/10) (4/10) "hola").graph_results = []
    ∧ (Synth.synthesize {} none (fun _ => "Respuesta breve sobre el tema.")
        "hola"
        (Synth.retrieve (Except.ok [Synth.exampleRes]) (Except.error "boom")
          (6/10) (4/10) "hola")).warnings = [] := by
  refine ⟨rfl, rfl, ?_⟩
  simp only [Synth.synthesize, Synth.retrieve]
  rw [Synth.mergeContexts_example]
  rw [if_neg (fun h => absurd h.2 (by decide))]
  rw [Synth.checkFaithfulness_none_unsupported]
  simp only [ne_eq, not_true_eq_false, if_false, List.nil_append]
  simp only [Synth.exampleRes, List.map_cons, List.map_nil, List.flatMap_nil,
    List.append_nil, List.length_singleton, List.filter_nil]
  rw [show String.intercalate " " ["tema de prueba"] = "tema de prueba" from rfl]
  rw [show String.intercalate " " ([] : List String) = "" from rfl]
  rw [Synth.faithScore_example, Synth.crossRef_example, Synth.confidence_example]
  norm_num

/-- C9 (amended): in hybrid mode a failing retriever is locally
contained — the other retriever's results are returned unchanged and the
failing side contributes the empty list — but the failure is only
logged, never surfaced: every warning `synthesize` attaches is either
the unsupported-claims notice or a low-confidence notice; no warning
mentions the retrieval failure. -/
theorem C9_failure_containment :
    (∀ (rag : List VectorStore.SearchResult) (err : String) (rw gw : ℚ)
        (query : String),
      (Synth.retrieve (Except.ok rag) (Except.error err) rw gw query).rag_results
          = rag
      ∧ (Synth.retrieve (Except.ok rag) (Except.error err) rw gw
          query).graph_results = [])
    ∧ (∀ (graph : List Synth.GraphSearchResult) (err : String) (rw gw : ℚ)
        (query : String),
      (Synth.retrieve (Except.error err) (Except.ok graph) rw gw
          query).graph_results = graph
      ∧ (Synth.retrieve (Except.error err) (Except.ok graph) rw gw
          query).rag_results = [])
    ∧ (∀ (cfg : Synth.EngineCfg) (emb : Option (String → List ℚ))
        (llm : String → String) (query : String) (hr : Synth.HybridResult),
        ∀ w ∈ (Synth.synthesize cfg emb llm query hr).warnings,
          w = Synth.unsupportedWarning ∨
          ∃ conf contact, w = Synth.lowConfWarning conf contact) := by
  refine ⟨fun _ _ _ _ _ => ⟨rfl, rfl⟩, fun _ _ _ _ _ => ⟨rfl, rfl⟩, ?_⟩
  intro cfg emb llm query hr w hw
  simp only [Synth.synthesize] at hw
  split at hw
  · simp at hw
  · rw [List.mem_append] at hw
    rcases hw with hw | hw
    · exact Or.inl (Synth.mem_ite_singleton hw)
    · exact Or.inr ⟨_, _, Synth.mem_ite_singleton hw⟩

/-- Witness for `C9_failure_containment`: a run with empty retrieval and
a non-empty context attaches exactly the low-confidence warning. -/
theorem C9_failure_containment_witness :
    Synth.lowConfWarning 0 "gestion.academica.lse@fi.uba.ar"
        = Synth.unsupportedWarning ∨
      ∃ conf contact,
        Synth.lowConfWarning 0 "gestion.academica.lse@fi.uba.ar"
          = Synth.lowConfWarning conf contact :=
  C9_failure_containment.2.2 {} none (fun _ => "Respuesta.") "hola"
    { merged_context := "Un contexto." }
    (Synth.lowConfWarning 0 "gestion.academica.lse@fi.uba.ar")
    (by
      have hwar : (Synth.synthesize {} none (fun _ => "Respuesta.") "hola"
          { merged_context := "Un contexto." }).warnings
          = [Synth.lowConfWarning 0 "gestion.academica.lse@fi.uba.ar"] := by
        simp only [Synth.synthesize]
        rw [if_neg (fun h => absurd h.2 (by decide))]
        rw [Synth.checkFaithfulness_none_unsupported]
        simp only [ne_eq, not_true_eq_false, if_false, List.map_nil,
          Synth.computeConfidence_nil, List.nil_append]
        rw [if_pos (by norm_num)]
        rw [show AntiHall.getFallbackContact "hola"
          = "gestion.academica.lse@fi.uba.ar" from by decide]
      rw [hwar]
      exact List.mem_singleton.mpr rfl)
